import Mathlib

/-!
Verification of the Boa language core (lexer, parser AST, tree-walking
evaluator) against its natural-language specification.

The C++ sources are shallowly embedded:
* `TokenType`, `Token`, `Lexer` follow `include/boa/token.h`;
* `Node` follows the AST classes of `ast.h` (one closed inductive in place
  of the `dynamic_cast` class hierarchy);
* `BoaValue`, `Environment` frames and the `Interpreter` evaluator follow
  `interpreter.h`.  `std::shared_ptr<BoaValue>` and `std::shared_ptr
  <Environment>` become indices into explicit heaps inside `InterpState`,
  so aliasing and in-place mutation behave as in the source.  C++ `double`
  is modelled as an exact rational (IEEE-754 rounding is elided; no theorem
  below depends on float rounding).  `int64_t` is modelled as `Int`
  (signed overflow is undefined behaviour in the source, and no theorem
  below exercises it).  Unbounded recursion (loops, calls) is modelled
  with explicit fuel: evaluation returns `none` when the fuel runs out,
  and every theorem speaks about terminating (`some`) runs.
-/

namespace Boa

/-- Token kinds, mirroring `enum class TokenType` in token.h. -/
inductive TokenType where
  | Fn | Imp | Ret | If | Elif | Else | For | In | While
  | Try | Except | Finally | Pass | And | Or | Not
  | True | False | None | Class
  | Plus | Minus | Star | Slash | Percent | DoubleStar
  | EqEq | BangEq | Less | LessEq | Greater | GreaterEq
  | Eq | PlusEq | MinusEq | StarEq | SlashEq
  | LParen | RParen | LBracket | RBracket | LBrace | RBrace
  | Colon | Comma | Dot
  | Int | Float | String
  | Indent | Dedent | Newline | Eof
  | Identifier
deriving DecidableEq, Repr

/-- A token, mirroring `struct Token` (source locations are plain counters). -/
structure Token where
  type : TokenType
  value : String
  line : Nat
  column : Nat
deriving DecidableEq, Repr

/-- AST nodes, mirroring the class hierarchy of `ast.h` as one closed
inductive.  `NumberLiteral::value` (a C++ `double`) is modelled as an exact
rational.  Source locations carry no semantic weight and are elided. -/
inductive Node where
  | numberLit (value : ℚ)
  | stringLit (value : String)
  | boolLit (value : Bool)
  | noneLit
  | identifier (name : String)
  | binaryOp (left : Node) (op : TokenType) (right : Node)
  | unaryOp (op : TokenType) (operand : Node)
  | assignment (target : Node) (op : TokenType) (value : Node)
  | listLit (elements : List Node)
  | dictLit (entries : List (Node × Node))
  | indexExpr (object : Node) (index : Node)
  | memberAccess (object : Node) (member : String)
  | functionCall (callee : Node) (args : List Node)
  | exprStmt (expr : Node)
  | fnDef (name : String) (params : List String) (body : List Node)
  | returnStmt (value : Option Node)
  | ifStmt (condition : Node) (body : List Node)
      (elifs : List (Node × List Node)) (elseBody : List Node)
  | forStmt (varName : String) (iterable : Node) (body : List Node)
  | whileStmt (condition : Node) (body : List Node)
  | importStmt (modules : List String)
  | tryStmt (tryBody : List Node) (exceptVar : String)
      (exceptBody : List Node) (finallyBody : List Node)
  | passStmt

/-- Value type tags, mirroring `enum class ValueType`. -/
inductive ValueType where
  | none | bool | int | float | string | list | dict
  | function | builtinFunction | module
deriving DecidableEq, Repr

/-- `value_type_name` from interpreter.h. -/
def value_type_name : ValueType → String
  | .none => "none"
  | .bool => "bool"
  | .int => "int"
  | .float => "float"
  | .string => "string"
  | .list => "list"
  | .dict => "dict"
  | .function => "function"
  | .builtinFunction => "builtin_function"
  | .module => "module"

/-- The built-in callables registered by `register_builtins`, plus the bound
callables produced by `eval_member` (which capture a list cell or a string).
In the source these are `std::function` closures; here each gets a tag and
`applyBuiltin` below gives its behaviour. -/
inductive BuiltinId where
  | print | len | str | int | float | type | range | append
  | ioPrint | ioInput
  | fsReadAllBytes | fsWriteAllBytes | fsReadText | fsWriteText
  | boundAppend (listRef : Nat)
  | boundUpper (s : String)
  | boundLower (s : String)
deriving DecidableEq, Repr

/-- `struct BoaFunction`: the body is kept as AST nodes, the closure is an
environment-heap index (`EnvPtr`). -/
structure BoaFunction where
  name : String
  params : List String
  body : List Node
  closure : Nat

/-- `struct BoaModule`: `std::unordered_map` is modelled as an association
list. -/
structure BoaModule where
  name : String
  members : List (String × Nat)

/-- `struct BoaValue`.  `BoaValuePtr` fields hold indices into the value
heap of `InterpState`.  As in the C++ struct, all payload fields are always
present with defaults and `type` selects the active one. -/
structure BoaValue where
  type : ValueType
  bool_val : Bool := Bool.false
  int_val : ℤ := 0
  float_val : ℚ := 0
  string_val : String := ""
  list_val : List Nat := []
  dict_val : List (Nat × Nat) := []
  func_val : Option BoaFunction := Option.none
  builtin_val : Option BuiltinId := Option.none
  module_val : Option BoaModule := Option.none

/-- `BoaValue::make_none`. -/
def make_none : BoaValue := { type := ValueType.none }

/-- `BoaValue::make_bool`. -/
def make_bool (b : Bool) : BoaValue := { type := ValueType.bool, bool_val := b }

/-- `BoaValue::make_int`. -/
def make_int (i : ℤ) : BoaValue := { type := ValueType.int, int_val := i }

/-- `BoaValue::make_float`. -/
def make_float (f : ℚ) : BoaValue := { type := ValueType.float, float_val := f }

/-- `BoaValue::make_string`. -/
def make_string (s : String) : BoaValue := { type := ValueType.string, string_val := s }

/-- `BoaValue::make_list`. -/
def make_list (elems : List Nat) : BoaValue := { type := ValueType.list, list_val := elems }

/-- `BoaValue::make_dict`. -/
def make_dict (entries : List (Nat × Nat)) : BoaValue :=
  { type := ValueType.dict, dict_val := entries }

/-- `BoaValue::make_function`. -/
def make_function (name : String) (params : List String) (body : List Node)
    (closure : Nat) : BoaValue :=
  { type := ValueType.function, func_val := some ⟨name, params, body, closure⟩ }

/-- `BoaValue::make_builtin`. -/
def make_builtin (fn : BuiltinId) : BoaValue :=
  { type := ValueType.builtinFunction, builtin_val := some fn }

/-- `BoaValue::make_module`. -/
def make_module (name : String) (members : List (String × Nat)) : BoaValue :=
  { type := ValueType.module, module_val := some ⟨name, members⟩ }

/-- `BoaValue::is_truthy`. -/
def is_truthy (v : BoaValue) : Bool :=
  match v.type with
  | .none => Bool.false
  | .bool => v.bool_val
  | .int => v.int_val != 0
  | .float => v.float_val != 0
  | .string => !(v.string_val.isEmpty)
  | .list => !(v.list_val.isEmpty)
  | .dict => !(v.dict_val.isEmpty)
  | _ => Bool.true

/-- `BoaValue::as_number`: numeric payload, or the runtime-error message the
source throws. -/
def as_number (v : BoaValue) : Except String ℚ :=
  if v.type = ValueType.int then Except.ok (v.int_val : ℚ)
  else if v.type = ValueType.float then Except.ok v.float_val
  else Except.error ("Expected numeric value, got " ++ value_type_name v.type)

/-- Truncation toward zero, the behaviour of C++ `static_cast<int64_t>` on a
`double` (in range; out of range the cast is undefined behaviour and the
model simply truncates). -/
def truncQ (q : ℚ) : ℤ := Int.tdiv q.num (q.den : ℤ)

/-- `Interpreter::values_equal` (scalars only; lists, dicts, functions,
builtins and modules are never equal). -/
def values_equal (a b : BoaValue) : Bool :=
  if a.type = ValueType.none ∧ b.type = ValueType.none then Bool.true
  else if a.type = ValueType.bool ∧ b.type = ValueType.bool then a.bool_val == b.bool_val
  else if a.type = ValueType.int ∧ b.type = ValueType.int then a.int_val == b.int_val
  else if a.type = ValueType.float ∧ b.type = ValueType.float then a.float_val == b.float_val
  else if a.type = ValueType.int ∧ b.type = ValueType.float then (a.int_val : ℚ) == b.float_val
  else if a.type = ValueType.float ∧ b.type = ValueType.int then a.float_val == (b.int_val : ℚ)
  else if a.type = ValueType.string ∧ b.type = ValueType.string then a.string_val == b.string_val
  else Bool.false

/-- `Interpreter::compare`: three-way comparison on numeric and string pairs,
error otherwise.  `std::string::compare` is byte-lexicographic; strings are
ASCII in every theorem below, where Lean's lexicographic `String` order
agrees with it. -/
def compare (a b : BoaValue) : Except String ℤ :=
  if (a.type = ValueType.int ∨ a.type = ValueType.float) ∧
     (b.type = ValueType.int ∨ b.type = ValueType.float) then do
    let av ← as_number a
    let bv ← as_number b
    if av < bv then Except.ok (-1)
    else if av > bv then Except.ok 1
    else Except.ok 0
  else if a.type = ValueType.string ∧ b.type = ValueType.string then
    if a.string_val < b.string_val then Except.ok (-1)
    else if b.string_val < a.string_val then Except.ok 1
    else Except.ok 0
  else
    Except.error ("Cannot compare " ++ value_type_name a.type ++ " and " ++
      value_type_name b.type)

/-- `Interpreter::add`. -/
def add (left right : BoaValue) : Except String BoaValue :=
  if left.type = ValueType.string ∧ right.type = ValueType.string then
    Except.ok (make_string (left.string_val ++ right.string_val))
  else if left.type = ValueType.list ∧ right.type = ValueType.list then
    Except.ok (make_list (left.list_val ++ right.list_val))
  else if left.type = ValueType.int ∧ right.type = ValueType.int then
    Except.ok (make_int (left.int_val + right.int_val))
  else if (left.type = ValueType.int ∨ left.type = ValueType.float) ∧
          (right.type = ValueType.int ∨ right.type = ValueType.float) then do
    let lv ← as_number left
    let rv ← as_number right
    Except.ok (make_float (lv + rv))
  else
    Except.error ("Cannot add " ++ value_type_name left.type ++ " and " ++
      value_type_name right.type)

/-- `Interpreter::subtract`. -/
def subtract (left right : BoaValue) : Except String BoaValue :=
  if left.type = ValueType.int ∧ right.type = ValueType.int then
    Except.ok (make_int (left.int_val - right.int_val))
  else if (left.type = ValueType.int ∨ left.type = ValueType.float) ∧
          (right.type = ValueType.int ∨ right.type = ValueType.float) then do
    let lv ← as_number left
    let rv ← as_number right
    Except.ok (make_float (lv - rv))
  else
    Except.error ("Cannot subtract " ++ value_type_name left.type ++ " and " ++
      value_type_name right.type)

/-- String repetition used by `Interpreter::multiply` (`result += s`,
`right->int_val` times; a non-positive count yields the empty string). -/
def repeatString (s : String) : Nat → String
  | 0 => ""
  | n + 1 => repeatString s n ++ s

/-- `Interpreter::multiply`. -/
def multiply (left right : BoaValue) : Except String BoaValue :=
  if left.type = ValueType.int ∧ right.type = ValueType.int then
    Except.ok (make_int (left.int_val * right.int_val))
  else if (left.type = ValueType.int ∨ left.type = ValueType.float) ∧
          (right.type = ValueType.int ∨ right.type = ValueType.float) then do
    let lv ← as_number left
    let rv ← as_number right
    Except.ok (make_float (lv * rv))
  else if left.type = ValueType.string ∧ right.type = ValueType.int then
    Except.ok (make_string (repeatString left.string_val right.int_val.toNat))
  else
    Except.error ("Cannot multiply " ++ value_type_name left.type ++ " and " ++
      value_type_name right.type)

/-- `Interpreter::divide`.  C++ `int64_t` division truncates toward zero
(`Int.tdiv`). -/
def divide (left right : BoaValue) : Except String BoaValue := do
  let r ← as_number right
  if r = 0 then Except.error "Division by zero"
  else if left.type = ValueType.int ∧ right.type = ValueType.int then
    Except.ok (make_int (Int.tdiv left.int_val right.int_val))
  else do
    let l ← as_number left
    Except.ok (make_float (l / r))

/-- `std::fmod` on the rational model: remainder with the sign of the
dividend, `a - trunc(a/b)*b`. -/
def ratFmod (a b : ℚ) : ℚ := a - (truncQ (a / b) : ℚ) * b

/-- `Interpreter::modulo`.  C++ `%` on `int64_t` has the sign of the
dividend (`Int.tmod`). -/
def modulo (left right : BoaValue) : Except String BoaValue :=
  if left.type = ValueType.int ∧ right.type = ValueType.int then
    if right.int_val = 0 then Except.error "Modulo by zero"
    else Except.ok (make_int (Int.tmod left.int_val right.int_val))
  else do
    let r ← as_number right
    if r = 0 then Except.error "Modulo by zero"
    else do
      let l ← as_number left
      Except.ok (make_float (ratFmod l r))

/-- The `while (exp > 0)` loop of `Interpreter::power`: fast binary
exponentiation.  The loop variable `exp` is a non-negative `int64_t`,
modelled as `Nat`; the loop halves it each round, so `exp + 1` units of
fuel always suffice (`powLoop` below supplies them). -/
def powLoopAux : Nat → ℤ → ℤ → Nat → ℤ
  | 0, result, _, _ => result
  | fuel + 1, result, base, exp =>
    if exp = 0 then result
    else powLoopAux fuel (if exp % 2 = 1 then result * base else result)
      (base * base) (exp / 2)

/-- The `while (exp > 0)` loop of `Interpreter::power` with its fuel
discharged. -/
def powLoop (result base : ℤ) (exp : Nat) : ℤ := powLoopAux (exp + 1) result base exp

/-- `std::pow` on the rational model: exact for integer exponents; a
non-integer exponent leaves the rational model (the source computes an
irrational double there) and is mapped to 0.  No theorem below depends on
that branch's payload. -/
def floatPow (a b : ℚ) : ℚ :=
  if b.den = 1 then
    if 0 ≤ b.num then a ^ b.num.toNat else (a ^ (-b.num).toNat)⁻¹
  else 0

/-- `Interpreter::power`. -/
def power (left right : BoaValue) : Except String BoaValue :=
  if left.type = ValueType.int ∧ right.type = ValueType.int ∧ 0 ≤ right.int_val then
    Except.ok (make_int (powLoop 1 left.int_val right.int_val.toNat))
  else if (left.type = ValueType.int ∨ left.type = ValueType.float) ∧
          (right.type = ValueType.int ∨ right.type = ValueType.float) then do
    let lv ← as_number left
    let rv ← as_number right
    Except.ok (make_float (floatPow lv rv))
  else
    Except.error ("Cannot exponentiate " ++ value_type_name left.type)

/-- `Interpreter::eval_number`: a numeric literal whose double value is
integral and within `[-9e18, 9e18]` becomes an `Int`, else a `Float`. -/
def eval_number (v : ℚ) : BoaValue :=
  if (truncQ v : ℚ) = v ∧ (-9000000000000000000 : ℚ) ≤ v ∧ v ≤ 9000000000000000000 then
    make_int (truncQ v)
  else
    make_float v

/-! ### Decimal conversions (`std::to_string`, `std::stoll`, `std::stod`) -/

/-- The ASCII character of a decimal digit. -/
def digitChar (d : Nat) : Char := Char.ofNat (48 + d)

/-- The decimal digit of an ASCII character. -/
def charDigit (c : Char) : Nat := c.toNat - 48

/-- Little-endian decimal digits of `n`.  Fuel-driven so that it reduces in
the kernel; `fuel = n + 1` always suffices. -/
def natToDigitsRev : Nat → Nat → List Nat
  | 0, _ => []
  | fuel + 1, n => if n < 10 then [n] else n % 10 :: natToDigitsRev fuel (n / 10)

/-- Decimal string of a natural number. -/
def natToDecStr (n : Nat) : String :=
  String.mk (((natToDigitsRev (n + 1) n).map digitChar).reverse)

/-- `std::to_string(int64_t)`: decimal, with a leading minus for negatives. -/
def intToDecStr (i : ℤ) : String :=
  if i < 0 then "-" ++ natToDecStr (-i).toNat else natToDecStr i.toNat

/-- The whitespace class of C `isspace`, skipped by `std::stoll` /
`std::stod`. -/
def isSpaceChar (c : Char) : Bool :=
  c = ' ' ∨ c = '\t' ∨ c = '\n' ∨ c = '\r' ∨ c.toNat = 11 ∨ c.toNat = 12

/-- Value of a big-endian list of decimal digit characters. -/
def natOfDigitList (ds : List Char) : Nat :=
  ds.foldl (fun a c => 10 * a + charDigit c) 0

/-- `INT64_MAX`. -/
def int64Max : ℤ := 9223372036854775807

/-- `INT64_MIN`. -/
def int64Min : ℤ := -9223372036854775808

/-- `std::stoll`: optional whitespace, optional sign, a nonempty maximal
run of decimal digits (else `invalid_argument`), range-checked against
`int64_t` (else `out_of_range`).  Both failures surface as `Except.error`;
the `int` builtin maps either to the same runtime error. -/
def stollModel (s : String) : Except String ℤ :=
  let cs := s.data.dropWhile isSpaceChar
  let signed : ℤ × List Char :=
    match cs with
    | c :: rest =>
      if c = '-' then (-1, rest) else if c = '+' then (1, rest) else (1, c :: rest)
    | [] => (1, [])
  let ds := signed.2.takeWhile Char.isDigit
  if ds = [] then Except.error "invalid_argument"
  else
    let v : ℤ := signed.1 * (natOfDigitList ds : ℤ)
    if v > int64Max ∨ v < int64Min then Except.error "out_of_range"
    else Except.ok v

/-- `std::stod`, restricted to the forms `[ws][sign]digits[.digits]` that
the rational model represents exactly (exponent forms and infinities are
not modelled; no theorem uses the `float` builtin on strings). -/
def stodModel (s : String) : Except String ℚ :=
  let cs := s.data.dropWhile isSpaceChar
  let signed : ℚ × List Char :=
    match cs with
    | c :: rest =>
      if c = '-' then (-1, rest) else if c = '+' then (1, rest) else (1, c :: rest)
    | [] => (1, [])
  let ds := signed.2.takeWhile Char.isDigit
  let rest := signed.2.drop ds.length
  let frac : List Char :=
    match rest with
    | '.' :: more => more.takeWhile Char.isDigit
    | _ => []
  if ds = [] ∧ frac = [] then Except.error "invalid_argument"
  else
    Except.ok (signed.1 * ((natOfDigitList ds : ℚ) +
      (natOfDigitList frac : ℚ) / (10 : ℚ) ^ frac.length))

/-- The value-level switch of the global `int` builtin in
`register_builtins`. -/
def intOfValue (a : BoaValue) : Except String BoaValue :=
  match a.type with
  | .int => Except.ok a
  | .float => Except.ok (make_int (truncQ a.float_val))
  | .string =>
    match stollModel a.string_val with
    | .ok v => Except.ok (make_int v)
    | .error _ =>
      Except.error ("int: cannot convert '" ++ a.string_val ++ "' to int")
  | .bool => Except.ok (make_int (if a.bool_val then 1 else 0))
  | t => Except.error ("int: unsupported type " ++ value_type_name t)

/-- The value-level switch of the global `float` builtin in
`register_builtins`. -/
def floatOfValue (a : BoaValue) : Except String BoaValue :=
  match a.type with
  | .float => Except.ok a
  | .int => Except.ok (make_float (a.int_val : ℚ))
  | .string =>
    match stodModel a.string_val with
    | .ok v => Except.ok (make_float v)
    | .error _ =>
      Except.error ("float: cannot convert '" ++ a.string_val ++ "' to float")
  | .bool => Except.ok (make_float (if a.bool_val then 1 else 0))
  | t => Except.error ("float: unsupported type " ++ value_type_name t)

/-! ### Interpreter state: value heap, environment heap, module cache -/

/-- `class Environment`: one frame of the scope chain.  `parent` is an
index into the environment heap (`EnvPtr`); `vars` models the
`unordered_map` as an association list. -/
structure EnvFrame where
  parent : Option Nat
  vars : List (String × Nat)

/-- The mutable state of one `Interpreter` run: the two heaps behind
`std::shared_ptr<BoaValue>` and `std::shared_ptr<Environment>`, the module
cache, the retained module ASTs, the captured output (`capture_output_`
on), and the module source provider (the `base_dir_` file lookup composed
with `Lexer`/`Parser`, abstracted to a map from module name to parsed
program as in spec section 6.3). -/
structure InterpState where
  vals : List BoaValue
  envs : List EnvFrame
  module_cache : List (String × Nat)
  module_asts : List (List Node)
  output : String
  provider : String → Option (List Node)

/-- Dereference a value pointer. -/
def getVal (st : InterpState) (id : Nat) : BoaValue := st.vals.getD id make_none

/-- Overwrite a value cell in place (all aliases observe the change). -/
def setVal (st : InterpState) (id : Nat) (v : BoaValue) : InterpState :=
  { st with vals := st.vals.set id v }

/-- `std::make_shared<BoaValue>`: append a fresh cell, returning its id. -/
def allocVal (st : InterpState) (v : BoaValue) : Nat × InterpState :=
  (st.vals.length, { st with vals := st.vals ++ [v] })

/-- Dereference an environment pointer. -/
def getFrame (st : InterpState) (e : Nat) : EnvFrame :=
  st.envs.getD e ⟨Option.none, []⟩

/-- Overwrite an environment frame in place. -/
def setFrame (st : InterpState) (e : Nat) (fr : EnvFrame) : InterpState :=
  { st with envs := st.envs.set e fr }

/-- `std::make_shared<Environment>(parent)`. -/
def allocFrame (st : InterpState) (parent : Option Nat) : Nat × InterpState :=
  (st.envs.length, { st with envs := st.envs ++ [⟨parent, []⟩] })

/-- Lookup in one frame's map. -/
def lookupVars (l : List (String × Nat)) (k : String) : Option Nat :=
  match l with
  | [] => Option.none
  | (k', v) :: rest => if k' = k then some v else lookupVars rest k

/-- `map[k] = v` on the association-list model: replace the first binding
or append a new one. -/
def updateVars (l : List (String × Nat)) (k : String) (v : Nat) :
    List (String × Nat) :=
  match l with
  | [] => [(k, v)]
  | (k', v') :: rest =>
    if k' = k then (k, v) :: rest else (k', v') :: updateVars rest k v

/-- The recursive walk of `Environment::get`.  The parent chain in any
reachable state is acyclic (parents are always allocated first), so fuel
`st.envs.length + 1` is always enough. -/
def envLookupAux : Nat → InterpState → Nat → String → Option Nat
  | 0, _, _, _ => Option.none
  | fuel + 1, st, e, name =>
    match lookupVars (getFrame st e).vars name with
    | some v => some v
    | Option.none =>
      match (getFrame st e).parent with
      | some p => envLookupAux fuel st p name
      | Option.none => Option.none

/-- `Environment::get`. -/
def envGet (st : InterpState) (e : Nat) (name : String) : Option Nat :=
  envLookupAux (st.envs.length + 1) st e name

/-- The `while (env)` search of `Environment::set`: the first environment
on the chain whose map already binds `name`. -/
def findEnvWith : Nat → InterpState → Nat → String → Option Nat
  | 0, _, _, _ => Option.none
  | fuel + 1, st, e, name =>
    if (lookupVars (getFrame st e).vars name).isSome then some e
    else
      match (getFrame st e).parent with
      | some p => findEnvWith fuel st p name
      | Option.none => Option.none

/-- `Environment::set`: update the binding in the first ancestor that has
one, else define in the current (innermost) frame. -/
def envSet (st : InterpState) (e : Nat) (name : String) (v : Nat) :
    InterpState :=
  match findEnvWith (st.envs.length + 1) st e name with
  | some f => setFrame st f ⟨(getFrame st f).parent, updateVars (getFrame st f).vars name v⟩
  | Option.none => setFrame st e ⟨(getFrame st e).parent, updateVars (getFrame st e).vars name v⟩

/-- `Environment::define`. -/
def envDefine (st : InterpState) (e : Nat) (name : String) (v : Nat) :
    InterpState :=
  setFrame st e ⟨(getFrame st e).parent, updateVars (getFrame st e).vars name v⟩

/-! ### Value rendering (`BoaValue::to_string`) -/

/-- Stand-in for `oss << float_val` (default-precision iostream output of a
C++ `double`).  The real behaviour is a bit-level IEEE-754 property outside
the rational model; no theorem below inspects Float string forms. -/
def floatToStr (q : ℚ) : String := toString q

/-- `BoaValue::to_string`.  Recursion through list/dict elements follows
value pointers, so it is fuel-driven; a heap of `n` acyclic cells never
nests deeper than `n`, so fuel `st.vals.length + 1` is always enough (on a
cyclic value the source recurses forever, which the model reports as
`none`). -/
def to_string : Nat → InterpState → BoaValue → Option String
  | fuel, st, v =>
    match v.type with
    | .none => some "none"
    | .bool => some (if v.bool_val then "true" else "false")
    | .int => some (intToDecStr v.int_val)
    | .float => some (floatToStr v.float_val)
    | .string => some v.string_val
    | .list =>
      match fuel with
      | 0 => Option.none
      | fuel + 1 => do
        let parts ← v.list_val.mapM (fun id => do
          let s ← to_string fuel st (getVal st id)
          if (getVal st id).type = ValueType.string then
            pure ("\"" ++ s ++ "\"")
          else
            pure s)
        pure ("[" ++ String.intercalate ", " parts ++ "]")
    | .dict =>
      match fuel with
      | 0 => Option.none
      | fuel + 1 => do
        let parts ← v.dict_val.mapM (fun p => do
          let ks ← to_string fuel st (getVal st p.1)
          let vs ← to_string fuel st (getVal st p.2)
          pure (ks ++ ": " ++ vs))
        pure ("\x7b" ++ String.intercalate ", " parts ++ "\x7d")
    | .function =>
      some ("<function " ++ ((v.func_val.map BoaFunction.name).getD "") ++ ">")
    | .builtinFunction => some "<builtin_function>"
    | .module =>
      some ("<module " ++ ((v.module_val.map BoaModule.name).getD "") ++ ">")

/-! ### Evaluation outcomes and builtin application -/

/-- The result of evaluating one node: a normal value, a runtime error
(`BoaRuntimeError`), or one of the non-local control-flow exceptions
(`ReturnException`, `BreakException`, `ContinueException`,
`BoaException`). -/
inductive Outcome where
  | ok (v : Nat)
  | err (msg : String)
  | ret (v : Nat)
  | brk
  | cont
  | exc (v : Nat)
deriving DecidableEq, Repr

/-- The two `for` loops of the `range` builtin, building one `make_int`
cell per element.  Fuel bounds the iteration count; `range` passes
`(stop - start).natAbs + 1`, enough because `|step| ≥ 1`. -/
def rangeLoop : Nat → Bool → ℤ → ℤ → ℤ → InterpState → List Nat →
    InterpState × List Nat
  | 0, _, _, _, _, st, acc => (st, acc)
  | fuel + 1, pos, i, stop, step, st, acc =>
    if (if pos then i < stop else i > stop) then
      let (id, st') := allocVal st (make_int i)
      rangeLoop fuel pos (i + step) stop step st' (acc ++ [id])
    else (st, acc)

/-- Render the arguments of `print` and append them to the captured
output, separated by spaces and followed by a newline. -/
def printArgs (args : List Nat) (st : InterpState) : InterpState × Outcome :=
  match args.mapM (fun id => to_string (st.vals.length + 1) st (getVal st id)) with
  | Option.none => (st, Outcome.err "to_string does not terminate on a cyclic value")
  | some parts =>
    let st1 := { st with output := st.output ++ String.intercalate " " parts ++ "\n" }
    let (id, st2) := allocVal st1 make_none
    (st2, Outcome.ok id)

/-- The behaviour of each registered builtin (the lambda bodies in
`register_builtins` and the bound callables made by `eval_member`).
`io.input` and the `fs` functions perform console/file I/O with the outside
world, which the embedding has no model of; no theorem exercises them. -/
def applyBuiltin (b : BuiltinId) (args : List Nat) (st : InterpState) :
    InterpState × Outcome :=
  match b with
  | .print => printArgs args st
  | .ioPrint => printArgs args st
  | .len =>
    match args with
    | [a] =>
      let v := getVal st a
      match v.type with
      | .string =>
        let (id, st') := allocVal st (make_int (v.string_val.length : ℤ))
        (st', Outcome.ok id)
      | .list =>
        let (id, st') := allocVal st (make_int (v.list_val.length : ℤ))
        (st', Outcome.ok id)
      | .dict =>
        let (id, st') := allocVal st (make_int (v.dict_val.length : ℤ))
        (st', Outcome.ok id)
      | t => (st, Outcome.err ("len: unsupported type " ++ value_type_name t))
    | _ => (st, Outcome.err "len: expected 1 argument")
  | .str =>
    match args with
    | [a] =>
      match to_string (st.vals.length + 1) st (getVal st a) with
      | Option.none => (st, Outcome.err "to_string does not terminate on a cyclic value")
      | some s =>
        let (id, st') := allocVal st (make_string s)
        (st', Outcome.ok id)
    | _ => (st, Outcome.err "str: expected 1 argument")
  | .int =>
    match args with
    | [a] =>
      match intOfValue (getVal st a) with
      | .ok v =>
        let (id, st') := allocVal st v
        (st', Outcome.ok id)
      | .error m => (st, Outcome.err m)
    | _ => (st, Outcome.err "int: expected 1 argument")
  | .float =>
    match args with
    | [a] =>
      match floatOfValue (getVal st a) with
      | .ok v =>
        let (id, st') := allocVal st v
        (st', Outcome.ok id)
      | .error m => (st, Outcome.err m)
    | _ => (st, Outcome.err "float: expected 1 argument")
  | .type =>
    match args with
    | [a] =>
      let (id, st') := allocVal st (make_string (value_type_name (getVal st a).type))
      (st', Outcome.ok id)
    | _ => (st, Outcome.err "type: expected 1 argument")
  | .range =>
    let nums : Except String (ℤ × ℤ × ℤ) :=
      match args with
      | [a] => do
        let v ← as_number (getVal st a)
        Except.ok (0, truncQ v, 1)
      | [a, b] => do
        let va ← as_number (getVal st a)
        let vb ← as_number (getVal st b)
        Except.ok (truncQ va, truncQ vb, 1)
      | [a, b, c] => do
        let va ← as_number (getVal st a)
        let vb ← as_number (getVal st b)
        let vc ← as_number (getVal st c)
        Except.ok (truncQ va, truncQ vb, truncQ vc)
      | _ => Except.error "range: expected 1-3 arguments"
    match nums with
    | .error m => (st, Outcome.err m)
    | .ok (start, stop, step) =>
      if step = 0 then (st, Outcome.err "range: step cannot be zero")
      else
        let (st1, ids) :=
          rangeLoop ((stop - start).natAbs + 1) (decide (step > 0)) start stop step st []
        let (id, st2) := allocVal st1 (make_list ids)
        (st2, Outcome.ok id)
  | .append =>
    match args with
    | [a, b] =>
      let v := getVal st a
      if v.type = ValueType.list then
        let st1 := setVal st a { v with list_val := v.list_val ++ [b] }
        let (id, st2) := allocVal st1 make_none
        (st2, Outcome.ok id)
      else (st, Outcome.err "append: first argument must be a list")
    | _ => (st, Outcome.err "append: expected 2 arguments (list, value)")
  | .boundAppend listRef =>
    match args with
    | [a] =>
      let v := getVal st listRef
      let st1 := setVal st listRef { v with list_val := v.list_val ++ [a] }
      let (id, st2) := allocVal st1 make_none
      (st2, Outcome.ok id)
    | _ => (st, Outcome.err "append: expected 1 argument")
  | .boundUpper s =>
    let (id, st') := allocVal st (make_string (String.map Char.toUpper s))
    (st', Outcome.ok id)
  | .boundLower s =>
    let (id, st') := allocVal st (make_string (String.map Char.toLower s))
    (st', Outcome.ok id)
  | .ioInput => (st, Outcome.err "io.input: console input is outside the model")
  | .fsReadAllBytes => (st, Outcome.err "fs.read_all_bytes: file I/O is outside the model")
  | .fsWriteAllBytes => (st, Outcome.err "fs.write_all_bytes: file I/O is outside the model")
  | .fsReadText => (st, Outcome.err "fs.read_text: file I/O is outside the model")
  | .fsWriteText => (st, Outcome.err "fs.write_text: file I/O is outside the model")

/-! ### The evaluator (`Interpreter::eval` and helper methods) -/

/-- The id of the interpreter's global environment: `global_env_` is the
first environment allocated (in the `Interpreter` constructor). -/
def globalEnvId : Nat := 0

/-- Exception propagation: run the continuation only on a normal value;
fuel exhaustion and thrown outcomes pass through, as C++ exceptions do. -/
def andThen (r : Option (InterpState × Outcome))
    (k : InterpState → Nat → Option (InterpState × Outcome)) :
    Option (InterpState × Outcome) :=
  match r with
  | Option.none => Option.none
  | some (st, Outcome.ok v) => k st v
  | some (st, o) => some (st, o)

/-- Allocate the result of an arithmetic helper, or turn its thrown message
into an error outcome. -/
def liftArith (st : InterpState) (r : Except String BoaValue) :
    InterpState × Outcome :=
  match r with
  | .ok v =>
    let (id, st') := allocVal st v
    (st', Outcome.ok id)
  | .error m => (st, Outcome.err m)

/-- Allocate the boolean of a three-way comparison, or propagate its
error. -/
def liftCmp (st : InterpState) (r : Except String ℤ) (f : ℤ → Bool) :
    InterpState × Outcome :=
  match r with
  | .ok c =>
    let (id, st') := allocVal st (make_bool (f c))
    (st', Outcome.ok id)
  | .error m => (st, Outcome.err m)

mutual

/-- `Interpreter::eval`: dispatch on the dynamic node type.  One unit of
fuel pays for each nested evaluation; `none` means the fuel ran out. -/
def eval : Nat → Node → Nat → InterpState → Option (InterpState × Outcome)
  | 0, _, _, _ => Option.none
  | fuel + 1, node, env, st =>
    match node with
    | .numberLit q =>
      let (id, st') := allocVal st (eval_number q)
      some (st', Outcome.ok id)
    | .stringLit s =>
      let (id, st') := allocVal st (make_string s)
      some (st', Outcome.ok id)
    | .boolLit b =>
      let (id, st') := allocVal st (make_bool b)
      some (st', Outcome.ok id)
    | .noneLit =>
      let (id, st') := allocVal st make_none
      some (st', Outcome.ok id)
    | .identifier name =>
      match envGet st env name with
      | some id => some (st, Outcome.ok id)
      | Option.none => some (st, Outcome.err ("Undefined variable '" ++ name ++ "'"))
    | .binaryOp l op r =>
      -- eval_binary: both operands are evaluated before the operator switch
      andThen (eval fuel l env st) fun st1 lv =>
      andThen (eval fuel r env st1) fun st2 rv =>
        match op with
        | .Plus => some (liftArith st2 (add (getVal st2 lv) (getVal st2 rv)))
        | .Minus => some (liftArith st2 (subtract (getVal st2 lv) (getVal st2 rv)))
        | .Star => some (liftArith st2 (multiply (getVal st2 lv) (getVal st2 rv)))
        | .Slash => some (liftArith st2 (divide (getVal st2 lv) (getVal st2 rv)))
        | .Percent => some (liftArith st2 (modulo (getVal st2 lv) (getVal st2 rv)))
        | .DoubleStar => some (liftArith st2 (power (getVal st2 lv) (getVal st2 rv)))
        | .EqEq =>
          let (id, st3) := allocVal st2 (make_bool (values_equal (getVal st2 lv) (getVal st2 rv)))
          some (st3, Outcome.ok id)
        | .BangEq =>
          let (id, st3) := allocVal st2 (make_bool (!values_equal (getVal st2 lv) (getVal st2 rv)))
          some (st3, Outcome.ok id)
        | .Less => some (liftCmp st2 (compare (getVal st2 lv) (getVal st2 rv)) (fun c => c < 0))
        | .LessEq => some (liftCmp st2 (compare (getVal st2 lv) (getVal st2 rv)) (fun c => c ≤ 0))
        | .Greater => some (liftCmp st2 (compare (getVal st2 lv) (getVal st2 rv)) (fun c => c > 0))
        | .GreaterEq => some (liftCmp st2 (compare (getVal st2 lv) (getVal st2 rv)) (fun c => c ≥ 0))
        | .And => some (st2, Outcome.ok (if is_truthy (getVal st2 lv) then rv else lv))
        | .Or => some (st2, Outcome.ok (if is_truthy (getVal st2 lv) then lv else rv))
        | _ => some (st2, Outcome.err "Unknown binary operator")
    | .unaryOp op operand =>
      andThen (eval fuel operand env st) fun st1 v =>
        match op with
        | .Minus =>
          let val := getVal st1 v
          if val.type = ValueType.int then
            let (id, st2) := allocVal st1 (make_int (-val.int_val))
            some (st2, Outcome.ok id)
          else if val.type = ValueType.float then
            let (id, st2) := allocVal st1 (make_float (-val.float_val))
            some (st2, Outcome.ok id)
          else some (st1, Outcome.err ("Cannot negate " ++ value_type_name val.type))
        | .Plus =>
          let val := getVal st1 v
          if val.type = ValueType.int ∨ val.type = ValueType.float then
            some (st1, Outcome.ok v)
          else some (st1, Outcome.err ("Cannot apply unary + to " ++ value_type_name val.type))
        | .Not =>
          let (id, st2) := allocVal st1 (make_bool (!is_truthy (getVal st1 v)))
          some (st2, Outcome.ok id)
        | _ => some (st1, Outcome.err "Unknown unary operator")
    | .assignment target op value =>
      -- eval_assignment: the right-hand side is evaluated first
      andThen (eval fuel value env st) fun st1 val =>
        match target with
        | .identifier name =>
          if op = TokenType.Eq then
            some (envSet st1 env name val, Outcome.ok val)
          else
            match envGet st1 env name with
            | Option.none => some (st1, Outcome.err ("Undefined variable '" ++ name ++ "'"))
            | some existing =>
              let res : Except String BoaValue :=
                match op with
                | .PlusEq => add (getVal st1 existing) (getVal st1 val)
                | .MinusEq => subtract (getVal st1 existing) (getVal st1 val)
                | .StarEq => multiply (getVal st1 existing) (getVal st1 val)
                | .SlashEq => divide (getVal st1 existing) (getVal st1 val)
                | _ => Except.error "Unknown assignment operator"
              match res with
              | .error m => some (st1, Outcome.err m)
              | .ok r =>
                let (rid, st2) := allocVal st1 r
                some (envSet st2 env name rid, Outcome.ok val)
        | .indexExpr object index =>
          -- the compound operator is ignored for index targets
          andThen (eval fuel object env st1) fun st2 objId =>
          andThen (eval fuel index env st2) fun st3 idxId =>
            let obj := getVal st3 objId
            if obj.type = ValueType.list then
              match as_number (getVal st3 idxId) with
              | .error m => some (st3, Outcome.err m)
              | .ok q =>
                let i0 := truncQ q
                let i := if i0 < 0 then i0 + (obj.list_val.length : ℤ) else i0
                if i < 0 ∨ (obj.list_val.length : ℤ) ≤ i then
                  some (st3, Outcome.err "Index out of range")
                else
                  let st4 := setVal st3 objId
                    { obj with list_val := obj.list_val.set i.toNat val }
                  some (st4, Outcome.ok val)
            else if obj.type = ValueType.dict then
              match obj.dict_val.findIdx?
                  (fun p => values_equal (getVal st3 p.1) (getVal st3 idxId)) with
              | some k =>
                let key := (obj.dict_val.getD k (0, 0)).1
                let st4 := setVal st3 objId
                  { obj with dict_val := obj.dict_val.set k (key, val) }
                some (st4, Outcome.ok val)
              | Option.none =>
                let st4 := setVal st3 objId
                  { obj with dict_val := obj.dict_val ++ [(idxId, val)] }
                some (st4, Outcome.ok val)
            else some (st3, Outcome.err ("Cannot index " ++ value_type_name obj.type))
        | .memberAccess object member =>
          -- the compound operator is ignored for member targets
          andThen (eval fuel object env st1) fun st2 objId =>
            let obj := getVal st2 objId
            if obj.type = ValueType.module then
              let m := obj.module_val.getD ⟨"", []⟩
              let st3 := setVal st2 objId
                { obj with module_val := some ⟨m.name, updateVars m.members member val⟩ }
              some (st3, Outcome.ok val)
            else some (st2, Outcome.err ("Cannot set member on " ++ value_type_name obj.type))
        | _ => some (st1, Outcome.err "Invalid assignment target")
    | .listLit elements =>
      match evalArgs fuel elements env st with
      | Option.none => Option.none
      | some (st1, Sum.inl o) => some (st1, o)
      | some (st1, Sum.inr ids) =>
        let (id, st2) := allocVal st1 (make_list ids)
        some (st2, Outcome.ok id)
    | .dictLit entries =>
      match evalEntries fuel entries env st with
      | Option.none => Option.none
      | some (st1, Sum.inl o) => some (st1, o)
      | some (st1, Sum.inr pairs) =>
        let (id, st2) := allocVal st1 (make_dict pairs)
        some (st2, Outcome.ok id)
    | .indexExpr object index =>
      andThen (eval fuel object env st) fun st1 objId =>
      andThen (eval fuel index env st1) fun st2 idxId =>
        let obj := getVal st2 objId
        if obj.type = ValueType.list then
          match as_number (getVal st2 idxId) with
          | .error m => some (st2, Outcome.err m)
          | .ok q =>
            let i0 := truncQ q
            let i := if i0 < 0 then i0 + (obj.list_val.length : ℤ) else i0
            if i < 0 ∨ (obj.list_val.length : ℤ) ≤ i then
              some (st2, Outcome.err "Index out of range")
            else some (st2, Outcome.ok (obj.list_val.getD i.toNat 0))
        else if obj.type = ValueType.string then
          match as_number (getVal st2 idxId) with
          | .error m => some (st2, Outcome.err m)
          | .ok q =>
            let i0 := truncQ q
            let i := if i0 < 0 then i0 + (obj.string_val.length : ℤ) else i0
            if i < 0 ∨ (obj.string_val.length : ℤ) ≤ i then
              some (st2, Outcome.err "String index out of range")
            else
              let c := obj.string_val.data.getD i.toNat ' '
              let (id, st3) := allocVal st2 (make_string (String.mk [c]))
              some (st3, Outcome.ok id)
        else if obj.type = ValueType.dict then
          match obj.dict_val.find?
              (fun p => values_equal (getVal st2 p.1) (getVal st2 idxId)) with
          | some p => some (st2, Outcome.ok p.2)
          | Option.none => some (st2, Outcome.err "Key not found in dict")
        else some (st2, Outcome.err ("Cannot index " ++ value_type_name obj.type))
    | .memberAccess object member =>
      andThen (eval fuel object env st) fun st1 objId =>
        let obj := getVal st1 objId
        if obj.type = ValueType.module then
          let m := obj.module_val.getD ⟨"", []⟩
          match lookupVars m.members member with
          | some v => some (st1, Outcome.ok v)
          | Option.none =>
            some (st1, Outcome.err ("Module '" ++ m.name ++ "' has no member '" ++ member ++ "'"))
        else if obj.type = ValueType.list ∧ member = "append" then
          let (id, st2) := allocVal st1 (make_builtin (BuiltinId.boundAppend objId))
          some (st2, Outcome.ok id)
        else if obj.type = ValueType.list ∧ member = "length" then
          let (id, st2) := allocVal st1 (make_int (obj.list_val.length : ℤ))
          some (st2, Outcome.ok id)
        else if obj.type = ValueType.string ∧ member = "length" then
          let (id, st2) := allocVal st1 (make_int (obj.string_val.length : ℤ))
          some (st2, Outcome.ok id)
        else if obj.type = ValueType.string ∧ member = "upper" then
          let (id, st2) := allocVal st1 (make_builtin (BuiltinId.boundUpper obj.string_val))
          some (st2, Outcome.ok id)
        else if obj.type = ValueType.string ∧ member = "lower" then
          let (id, st2) := allocVal st1 (make_builtin (BuiltinId.boundLower obj.string_val))
          some (st2, Outcome.ok id)
        else
          some (st1, Outcome.err ("Cannot access member '" ++ member ++ "' on " ++
            value_type_name obj.type))
    | .functionCall callee args =>
      andThen (eval fuel callee env st) fun st1 calleeId =>
        match evalArgs fuel args env st1 with
        | Option.none => Option.none
        | some (st2, Sum.inl o) => some (st2, o)
        | some (st2, Sum.inr ids) =>
          let cv := getVal st2 calleeId
          if cv.type = ValueType.builtinFunction then
            match cv.builtin_val with
            | some b => some (applyBuiltin b ids st2)
            | Option.none => some (st2, Outcome.err "Object is not callable")
          else if cv.type = ValueType.function then
            match cv.func_val with
            | some fn =>
              if ids.length ≠ fn.params.length then
                some (st2, Outcome.err ("Function '" ++ fn.name ++ "' expected " ++
                  natToDecStr fn.params.length ++ " arguments, got " ++
                  natToDecStr ids.length))
              else
                let (fnEnv, st3) := allocFrame st2 (some fn.closure)
                let st4 := (fn.params.zip ids).foldl
                  (fun s p => envDefine s fnEnv p.1 p.2) st3
                match execBody fuel fn.body fnEnv st4 with
                | Option.none => Option.none
                | some (st5, Outcome.ok r) => some (st5, Outcome.ok r)
                | some (st5, Outcome.ret v) => some (st5, Outcome.ok v)
                | some (st5, o) => some (st5, o)
            | Option.none => some (st2, Outcome.err "Object is not callable")
          else some (st2, Outcome.err "Object is not callable")
    | .exprStmt expr => eval fuel expr env st
    | .fnDef name params body =>
      let (id, st') := allocVal st (make_function name params body env)
      some (envDefine st' env name id, Outcome.ok id)
    | .returnStmt value =>
      let (nid, st0) := allocVal st make_none
      match value with
      | Option.none => some (st0, Outcome.ret nid)
      | some vnode =>
        andThen (eval fuel vnode env st0) fun st1 v => some (st1, Outcome.ret v)
    | .ifStmt cond body elifs elseBody =>
      andThen (eval fuel cond env st) fun st1 c =>
        if is_truthy (getVal st1 c) then execBody fuel body env st1
        else evalElifs fuel elifs elseBody env st1
    | .forStmt varName iterable body =>
      andThen (eval fuel iterable env st) fun st1 itId =>
        let it := getVal st1 itId
        if it.type ≠ ValueType.list then
          some (st1, Outcome.err "for: can only iterate over lists")
        else
          let (rid, st2) := allocVal st1 make_none
          -- the source iterates the vector live; the items are read up
          -- front here (body mutation during iteration is out of scope)
          forLoop fuel varName body it.list_val rid env st2
    | .whileStmt cond body =>
      let (rid, st0) := allocVal st make_none
      whileLoop fuel cond body rid env st0
    | .importStmt modules => importLoop fuel modules env st
    | .tryStmt tryBody exceptVar exceptBody finallyBody =>
      match execBody fuel tryBody env st with
      | Option.none => Option.none
      | some (st1, Outcome.ok v) =>
        -- the source returns here without running the finally body
        some (st1, Outcome.ok v)
      | some (st1, Outcome.err m) =>
        if !exceptBody.isEmpty then
          let st2 :=
            if exceptVar ≠ "" then
              let (sid, stx) := allocVal st1 (make_string m)
              envSet stx env exceptVar sid
            else st1
          match execBody fuel exceptBody env st2 with
          | Option.none => Option.none
          | some (st3, Outcome.ok r) =>
            if !finallyBody.isEmpty then
              match execBody fuel finallyBody env st3 with
              | Option.none => Option.none
              | some (st4, Outcome.ok _) => some (st4, Outcome.ok r)
              | some (st4, o) => some (st4, o)
            else some (st3, Outcome.ok r)
          | some (st3, o) => some (st3, o)
        else
          if !finallyBody.isEmpty then
            match execBody fuel finallyBody env st1 with
            | Option.none => Option.none
            | some (st2, Outcome.ok _) => some (st2, Outcome.err m)
            | some (st2, o) => some (st2, o)
          else some (st1, Outcome.err m)
      | some (st1, Outcome.exc v) =>
        if !exceptBody.isEmpty then
          let st2 :=
            if exceptVar ≠ "" then envSet st1 env exceptVar v
            else st1
          match execBody fuel exceptBody env st2 with
          | Option.none => Option.none
          | some (st3, Outcome.ok r) =>
            if !finallyBody.isEmpty then
              match execBody fuel finallyBody env st3 with
              | Option.none => Option.none
              | some (st4, Outcome.ok _) => some (st4, Outcome.ok r)
              | some (st4, o) => some (st4, o)
            else some (st3, Outcome.ok r)
          | some (st3, o) => some (st3, o)
        else
          if !finallyBody.isEmpty then
            match execBody fuel finallyBody env st1 with
            | Option.none => Option.none
            | some (st2, Outcome.ok _) => some (st2, Outcome.exc v)
            | some (st2, o) => some (st2, o)
          else some (st1, Outcome.exc v)
      | some (st1, o) => some (st1, o)
    | .passStmt =>
      let (id, st') := allocVal st make_none
      some (st', Outcome.ok id)
termination_by structural fuel _ _ _ => fuel

/-- `Interpreter::exec_body` (and the identical `exec_body_raw`): start
from a fresh `make_none` result, evaluate the statements in order, return
the last value. -/
def execBody : Nat → List Node → Nat → InterpState →
    Option (InterpState × Outcome)
  | 0, _, _, _ => Option.none
  | fuel + 1, stmts, env, st =>
    let (rid, st0) := allocVal st make_none
    execStmts fuel stmts rid env st0
termination_by structural fuel _ _ _ => fuel

/-- The statement loop of `exec_body`. -/
def execStmts : Nat → List Node → Nat → Nat → InterpState →
    Option (InterpState × Outcome)
  | _, [], result, _, st => some (st, Outcome.ok result)
  | 0, _ :: _, _, _, _ => Option.none
  | fuel + 1, s :: rest, _, env, st =>
    match eval fuel s env st with
    | Option.none => Option.none
    | some (st1, Outcome.ok r) => execStmts fuel rest r env st1
    | some (st1, o) => some (st1, o)
termination_by structural fuel _ _ _ _ => fuel

/-- Argument/element evaluation, left to right (`eval_call`,
`eval_list`): collect the value ids or propagate the first exception. -/
def evalArgs : Nat → List Node → Nat → InterpState →
    Option (InterpState × (Outcome ⊕ List Nat))
  | _, [], _, st => some (st, Sum.inr [])
  | 0, _ :: _, _, _ => Option.none
  | fuel + 1, a :: rest, env, st =>
    match eval fuel a env st with
    | Option.none => Option.none
    | some (st1, Outcome.ok v) =>
      match evalArgs fuel rest env st1 with
      | Option.none => Option.none
      | some (st2, Sum.inr ids) => some (st2, Sum.inr (v :: ids))
      | some (st2, Sum.inl o) => some (st2, Sum.inl o)
    | some (st1, o) => some (st1, Sum.inl o)
termination_by structural fuel _ _ _ => fuel

/-- Dict-literal entry evaluation (`eval_dict`): key then value, in source
order. -/
def evalEntries : Nat → List (Node × Node) → Nat → InterpState →
    Option (InterpState × (Outcome ⊕ List (Nat × Nat)))
  | _, [], _, st => some (st, Sum.inr [])
  | 0, _ :: _, _, _ => Option.none
  | fuel + 1, (k, v) :: rest, env, st =>
    match eval fuel k env st with
    | Option.none => Option.none
    | some (st1, Outcome.ok kid) =>
      match eval fuel v env st1 with
      | Option.none => Option.none
      | some (st2, Outcome.ok vid) =>
        match evalEntries fuel rest env st2 with
        | Option.none => Option.none
        | some (st3, Sum.inr pairs) => some (st3, Sum.inr ((kid, vid) :: pairs))
        | some (st3, Sum.inl o) => some (st3, Sum.inl o)
      | some (st2, o) => some (st2, Sum.inl o)
    | some (st1, o) => some (st1, Sum.inl o)
termination_by structural fuel _ _ _ => fuel

/-- The elif/else cascade of `Interpreter::eval_if`. -/
def evalElifs : Nat → List (Node × List Node) → List Node → Nat →
    InterpState → Option (InterpState × Outcome)
  | 0, _, _, _, _ => Option.none
  | fuel + 1, [], elseBody, env, st =>
    if elseBody.isEmpty then
      let (id, st') := allocVal st make_none
      some (st', Outcome.ok id)
    else execBody fuel elseBody env st
  | fuel + 1, (c, b) :: rest, elseBody, env, st =>
    andThen (eval fuel c env st) fun st1 cv =>
      if is_truthy (getVal st1 cv) then execBody fuel b env st1
      else evalElifs fuel rest elseBody env st1
termination_by structural fuel _ _ _ _ => fuel

/-- The iteration loop of `Interpreter::eval_for`: bind the loop variable
with `Environment::set`, run the body, handle break/continue. -/
def forLoop : Nat → String → List Node → List Nat → Nat → Nat →
    InterpState → Option (InterpState × Outcome)
  | _, _, _, [], result, _, st => some (st, Outcome.ok result)
  | 0, _, _, _ :: _, _, _, _ => Option.none
  | fuel + 1, varName, body, item :: rest, result, env, st =>
    let st1 := envSet st env varName item
    match execBody fuel body env st1 with
    | Option.none => Option.none
    | some (st2, Outcome.ok r) => forLoop fuel varName body rest r env st2
    | some (st2, Outcome.brk) => some (st2, Outcome.ok result)
    | some (st2, Outcome.cont) => forLoop fuel varName body rest result env st2
    | some (st2, o) => some (st2, o)
termination_by structural fuel _ _ _ _ _ _ => fuel

/-- The iteration loop of `Interpreter::eval_while`. -/
def whileLoop : Nat → Node → List Node → Nat → Nat → InterpState →
    Option (InterpState × Outcome)
  | 0, _, _, _, _, _ => Option.none
  | fuel + 1, cond, body, result, env, st =>
    andThen (eval fuel cond env st) fun st1 c =>
      if !is_truthy (getVal st1 c) then some (st1, Outcome.ok result)
      else
        match execBody fuel body env st1 with
        | Option.none => Option.none
        | some (st2, Outcome.ok r) => whileLoop fuel cond body r env st2
        | some (st2, Outcome.brk) => some (st2, Outcome.ok result)
        | some (st2, Outcome.cont) => whileLoop fuel cond body result env st2
        | some (st2, o) => some (st2, o)
termination_by structural fuel _ _ _ _ _ => fuel

/-- The per-module loop of `Interpreter::eval_import`.  A cache hit binds
the cached module.  Otherwise the provider supplies the parsed program
(missing file is a runtime error); a fresh environment `mod_env` is
allocated with the global environment as parent, but the program is
executed by `exec(program.get())`, which runs in the *global* environment;
the module's members are then collected from `mod_env`. -/
def importLoop : Nat → List String → Nat → InterpState →
    Option (InterpState × Outcome)
  | 0, _, _, _ => Option.none
  | fuel + 1, [], _, st =>
    let (id, st') := allocVal st make_none
    some (st', Outcome.ok id)
  | fuel + 1, modName :: rest, env, st =>
    match lookupVars st.module_cache modName with
    | some mid => importLoop fuel rest env (envDefine st env modName mid)
    | Option.none =>
      match st.provider modName with
      | Option.none =>
        some (st, Outcome.err ("Cannot find module '" ++ modName ++
          "' (looked in ./" ++ modName ++ ".boa)"))
      | some program =>
        let (modEnv, st1) := allocFrame st (some globalEnvId)
        match execBody fuel program globalEnvId st1 with
        | Option.none => Option.none
        | some (st2, Outcome.ok _) =>
          let members := (getFrame st2 modEnv).vars
          let (mid, st3) := allocVal st2 (make_module modName members)
          let st4 := { st3 with
            module_cache := updateVars st3.module_cache modName mid,
            module_asts := st3.module_asts ++ [program] }
          importLoop fuel rest env (envDefine st4 env modName mid)
        | some (st2, o) => some (st2, o)
termination_by structural fuel _ _ _ => fuel

end

/-- The interpreter constructor: allocate `global_env_` (id 0), then
`register_builtins` — the `io` and `fs` modules into the module cache and
the global builtin functions into the global environment, in source
order. -/
def initState (provider : String → Option (List Node)) : InterpState :=
  let st0 : InterpState :=
    { vals := [], envs := [], module_cache := [], module_asts := [],
      output := "", provider := provider }
  let (g, st1) := allocFrame st0 Option.none
  let (ioPrintId, st2) := allocVal st1 (make_builtin BuiltinId.ioPrint)
  let (ioInputId, st3) := allocVal st2 (make_builtin BuiltinId.ioInput)
  let (ioModId, st4) := allocVal st3 (make_module "io"
    [("print", ioPrintId), ("println", ioPrintId), ("input", ioInputId)])
  let (fsRabId, st5) := allocVal st4 (make_builtin BuiltinId.fsReadAllBytes)
  let (fsWabId, st6) := allocVal st5 (make_builtin BuiltinId.fsWriteAllBytes)
  let (fsRtId, st7) := allocVal st6 (make_builtin BuiltinId.fsReadText)
  let (fsWtId, st8) := allocVal st7 (make_builtin BuiltinId.fsWriteText)
  let (fsModId, st9) := allocVal st8 (make_module "fs"
    [("read_all_bytes", fsRabId), ("write_all_bytes", fsWabId),
     ("read_text", fsRtId), ("write_text", fsWtId)])
  let st10 := { st9 with module_cache := [("io", ioModId), ("fs", fsModId)] }
  let (lenId, st11) := allocVal st10 (make_builtin BuiltinId.len)
  let (strId, st12) := allocVal st11 (make_builtin BuiltinId.str)
  let (intId, st13) := allocVal st12 (make_builtin BuiltinId.int)
  let (floatId, st14) := allocVal st13 (make_builtin BuiltinId.float)
  let (typeId, st15) := allocVal st14 (make_builtin BuiltinId.type)
  let (rangeId, st16) := allocVal st15 (make_builtin BuiltinId.range)
  let (appendId, st17) := allocVal st16 (make_builtin BuiltinId.append)
  let (printId, st18) := allocVal st17 (make_builtin BuiltinId.print)
  let st19 := envDefine st18 g "len" lenId
  let st20 := envDefine st19 g "str" strId
  let st21 := envDefine st20 g "int" intId
  let st22 := envDefine st21 g "float" floatId
  let st23 := envDefine st22 g "type" typeId
  let st24 := envDefine st23 g "range" rangeId
  let st25 := envDefine st24 g "append" appendId
  envDefine st25 g "print" printId

/-- `Interpreter::exec`: run a program's statements in the global
environment. -/
def execProgram (fuel : Nat) (program : List Node) (st : InterpState) :
    Option (InterpState × Outcome) :=
  execBody fuel program globalEnvId st

/-! ### The lexer (`class Lexer` in token.h) -/

/-- `class LexerError`: message plus source position. -/
structure LexerError where
  message : String
  line : Nat
  column : Nat
deriving DecidableEq, Repr

/-- `Lexer::advance` position bookkeeping for one consumed character. -/
def advanceChar (c : Char) (line col : Nat) : Nat × Nat :=
  if c = '\n' then (line + 1, 1) else (line, col + 1)

/-- The escape-sequence switch of `Lexer::read_string` (`none` for an
invalid escape). -/
def escapeChar (c : Char) : Option Char :=
  match c with
  | 'n' => some '\n'
  | 't' => some '\t'
  | 'r' => some '\r'
  | '\\' => some '\\'
  | _ =>
    if c = Char.ofNat 39 then some (Char.ofNat 39)
    else if c = Char.ofNat 34 then some (Char.ofNat 34)
    else if c = '0' then some (Char.ofNat 0)
    else Option.none

/-- The scanning loop of `Lexer::read_string`: `quote` is the opening
quote, `sl`/`sc` its position, `acc` the decoded value so far. -/
def readStringLoop (quote : Char) (sl sc : Nat) :
    List Char → Nat → Nat → List Char →
    Except LexerError (Token × List Char × Nat × Nat)
  | [], _, _, _ =>
    Except.error ⟨"unterminated string literal (reached end of input)", sl, sc⟩
  | c :: rest, line, col, acc =>
    if c = '\n' then
      Except.error ⟨"unterminated string literal (newline in string)", sl, sc⟩
    else if c = '\\' then
      let lc1 := advanceChar c line col
      match rest with
      | [] =>
        Except.error ⟨"unterminated escape sequence at end of input", lc1.1, lc1.2⟩
      | e :: rest2 =>
        let lc2 := advanceChar e lc1.1 lc1.2
        match escapeChar e with
        | some ch => readStringLoop quote sl sc rest2 lc2.1 lc2.2 (acc ++ [ch])
        | Option.none =>
          Except.error ⟨"invalid escape sequence: \\" ++ String.mk [e], lc2.1, lc2.2 - 1⟩
    else if c = quote then
      let lc1 := advanceChar c line col
      Except.ok (⟨TokenType.String, String.mk acc, sl, sc⟩, rest, lc1.1, lc1.2)
    else
      let lc1 := advanceChar c line col
      readStringLoop quote sl sc rest lc1.1 lc1.2 (acc ++ [c])

/-- `Lexer::read_number`: digits, optional fraction (a digit must follow
the dot), optional exponent (`e`/`E`, optional sign, at least one digit).
None of the consumed characters is a newline, so only the column moves. -/
def read_number (cs : List Char) (line col : Nat) :
    Except LexerError (Token × List Char × Nat × Nat) :=
  let ds := cs.takeWhile Char.isDigit
  let r1 := cs.drop ds.length
  let fracPart : Option (List Char) :=
    match r1 with
    | '.' :: d :: _ => if d.isDigit then some ((r1.drop 1).takeWhile Char.isDigit) else Option.none
    | _ => Option.none
  let isFloat1 := fracPart.isSome
  let consumed1 := ds.length + (match fracPart with
    | some f => f.length + 1
    | Option.none => 0)
  let r2 := cs.drop consumed1
  let value1 := cs.take consumed1
  match r2 with
  | e :: r3 =>
    if e = 'e' ∨ e = 'E' then
      let signLen : Nat :=
        match r3 with
        | s :: _ => if s = '+' ∨ s = '-' then 1 else 0
        | [] => 0
      let expDigits := (r3.drop signLen).takeWhile Char.isDigit
      if expDigits.isEmpty then
        Except.error ⟨"invalid numeric literal: expected digit after exponent",
          line, col + consumed1 + 1 + signLen⟩
      else
        let consumed2 := consumed1 + 1 + signLen + expDigits.length
        Except.ok (⟨TokenType.Float, String.mk (cs.take consumed2), line, col⟩,
          cs.drop consumed2, line, col + consumed2)
    else
      Except.ok (⟨if isFloat1 then TokenType.Float else TokenType.Int,
        String.mk value1, line, col⟩, r2, line, col + consumed1)
  | [] =>
    Except.ok (⟨if isFloat1 then TokenType.Float else TokenType.Int,
      String.mk value1, line, col⟩, r2, line, col + consumed1)

/-- The keyword table of `Lexer::keywords`. -/
def keywordLookup (s : String) : Option TokenType :=
  match s with
  | "fn" => some TokenType.Fn
  | "imp" => some TokenType.Imp
  | "ret" => some TokenType.Ret
  | "if" => some TokenType.If
  | "elif" => some TokenType.Elif
  | "else" => some TokenType.Else
  | "for" => some TokenType.For
  | "in" => some TokenType.In
  | "while" => some TokenType.While
  | "try" => some TokenType.Try
  | "except" => some TokenType.Except
  | "finally" => some TokenType.Finally
  | "pass" => some TokenType.Pass
  | "and" => some TokenType.And
  | "or" => some TokenType.Or
  | "not" => some TokenType.Not
  | "true" => some TokenType.True
  | "false" => some TokenType.False
  | "none" => some TokenType.None
  | "class" => some TokenType.Class
  | _ => Option.none

/-- `Lexer::read_identifier_or_keyword`. -/
def read_identifier (cs : List Char) (line col : Nat) :
    Token × List Char × Nat × Nat :=
  let idChars := cs.takeWhile (fun x => x.isAlphanum ∨ x = '_')
  let s := String.mk idChars
  let tt := (keywordLookup s).getD TokenType.Identifier
  (⟨tt, s, line, col⟩, cs.drop idChars.length, line, col + idChars.length)

/-- `Lexer::read_operator_or_delimiter`: longest-match two-character
operators, then single characters; lone `!` and unknown characters are
lexical errors. -/
def read_operator (c : Char) (rest : List Char) (line col : Nat) :
    Except LexerError (Token × List Char × Nat × Nat) :=
  let one : TokenType → String → Except LexerError (Token × List Char × Nat × Nat) :=
    fun tt s => Except.ok (⟨tt, s, line, col⟩, rest, line, col + 1)
  let two : TokenType → String → Except LexerError (Token × List Char × Nat × Nat) :=
    fun tt s => Except.ok (⟨tt, s, line, col⟩, rest.drop 1, line, col + 2)
  let peekEq := rest.headD (Char.ofNat 0) = '='
  match c with
  | '(' => one TokenType.LParen "("
  | ')' => one TokenType.RParen ")"
  | '[' => one TokenType.LBracket "["
  | ']' => one TokenType.RBracket "]"
  | ':' => one TokenType.Colon ":"
  | ',' => one TokenType.Comma ","
  | '.' => one TokenType.Dot "."
  | '%' => one TokenType.Percent "%"
  | '+' => if peekEq then two TokenType.PlusEq "+=" else one TokenType.Plus "+"
  | '-' => if peekEq then two TokenType.MinusEq "-=" else one TokenType.Minus "-"
  | '*' =>
    if rest.headD (Char.ofNat 0) = '*' then two TokenType.DoubleStar "**"
    else if peekEq then two TokenType.StarEq "*="
    else one TokenType.Star "*"
  | '/' => if peekEq then two TokenType.SlashEq "/=" else one TokenType.Slash "/"
  | '=' => if peekEq then two TokenType.EqEq "==" else one TokenType.Eq "="
  | '!' =>
    if peekEq then two TokenType.BangEq "!="
    else Except.error ⟨"unexpected character '!' (did you mean '!='?)", line, col⟩
  | '<' => if peekEq then two TokenType.LessEq "<=" else one TokenType.Less "<"
  | '>' => if peekEq then two TokenType.GreaterEq ">=" else one TokenType.Greater ">"
  | _ =>
    if c = Char.ofNat 123 then one TokenType.LBrace (String.mk [Char.ofNat 123])
    else if c = Char.ofNat 125 then one TokenType.RBrace (String.mk [Char.ofNat 125])
    else Except.error ⟨"unexpected character: '" ++ String.mk [c] ++ "'", line, col⟩

/-- The leading-whitespace loop of `Lexer::handle_indentation`: spaces
count 1, a tab advances the count to the next multiple of 8. -/
def indentLoop : List Char → Nat → Nat × List Char
  | [], indent => (indent, [])
  | c :: rest, indent =>
    if c = ' ' then indentLoop rest (indent + 1)
    else if c = '\t' then indentLoop rest ((indent / 8 + 1) * 8)
    else (indent, c :: rest)

/-- The dedent-pop loop of `Lexer::handle_indentation`: pop and emit while
more than one level remains and the top exceeds the new indent.  The top
of `indent_stack_` is the head of the list here. -/
def dedentLoop (indent : Nat) (tok : Token) : List Nat → List Token × List Nat
  | top :: next :: restStack =>
    if top > indent then
      (tok :: (dedentLoop indent tok (next :: restStack)).1,
       (dedentLoop indent tok (next :: restStack)).2)
    else ([], top :: next :: restStack)
  | stack => ([], stack)

/-- `Lexer::handle_indentation`.  Returns the emitted tokens, the
remaining input, the new column and the new indent stack; the line number
cannot change (no newline is consumed). -/
def handle_indentation (cs : List Char) (line col : Nat) (stack : List Nat) :
    Except LexerError (List Token × List Char × Nat × List Nat) :=
  let ir := indentLoop cs 0
  let indent := ir.1
  let rest := ir.2
  let col' := col + (cs.length - rest.length)
  match rest with
  | [] => Except.ok ([], rest, col', stack)
  | c :: _ =>
    if c = '\n' ∨ c = '\r' ∨ c = '#' then Except.ok ([], rest, col', stack)
    else
      let current := stack.headD 0
      if indent > current then
        Except.ok ([⟨TokenType.Indent, "", line, col⟩], rest, col', indent :: stack)
      else if indent < current then
        let tr := dedentLoop indent ⟨TokenType.Dedent, "", line, col⟩ stack
        if tr.2.headD 0 ≠ indent then
          Except.error ⟨"unindent does not match any outer indentation level", line, col⟩
        else Except.ok (tr.1, rest, col', tr.2)
      else Except.ok ([], rest, col', stack)

/-- One step of the per-character dispatch in the `tokenize` loop (after
indentation handling): returns the emitted tokens, the remaining input,
the position, and the new `at_line_start_` flag. -/
def lexOne (cs : List Char) (line col : Nat) :
    Except LexerError (List Token × List Char × Nat × Nat × Bool)
  := match cs with
  | [] => Except.ok ([], [], line, col, Bool.false)
  | c :: rest =>
    if c = ' ' ∨ c = '\t' then
      let lc := advanceChar c line col
      Except.ok ([], rest, lc.1, lc.2, Bool.false)
    else if c = '\n' then
      let lc := advanceChar c line col
      Except.ok ([⟨TokenType.Newline, "\\n", line, col⟩], rest, lc.1, lc.2, Bool.true)
    else if c = '\r' then
      let lc := advanceChar c line col
      match rest with
      | '\n' :: rest2 =>
        let lc2 := advanceChar '\n' lc.1 lc.2
        Except.ok ([⟨TokenType.Newline, "\\n", lc2.1 - 1, lc2.2⟩], rest2, lc2.1, lc2.2, Bool.true)
      | _ =>
        Except.ok ([⟨TokenType.Newline, "\\n", lc.1 - 1, lc.2⟩], rest, lc.1, lc.2, Bool.true)
    else if c = '#' then
      let com := (c :: rest).takeWhile (fun x => x ≠ '\n')
      Except.ok ([], (c :: rest).drop com.length, line, col + com.length, Bool.false)
    else if c = Char.ofNat 34 ∨ c = Char.ofNat 39 then
      let lc := advanceChar c line col
      match readStringLoop c line col rest lc.1 lc.2 [] with
      | Except.error e => Except.error e
      | Except.ok (tok, rest', l', c') => Except.ok ([tok], rest', l', c', Bool.false)
    else if c.isDigit then
      match read_number (c :: rest) line col with
      | Except.error e => Except.error e
      | Except.ok (tok, rest', l', c') => Except.ok ([tok], rest', l', c', Bool.false)
    else if c.isAlpha ∨ c = '_' then
      let r := read_identifier (c :: rest) line col
      Except.ok ([r.1], r.2.1, r.2.2.1, r.2.2.2, Bool.false)
    else
      match read_operator c rest line col with
      | Except.error e => Except.error e
      | Except.ok (tok, rest', l', c') => Except.ok ([tok], rest', l', c', Bool.false)

/-- The main `while (!at_end())` loop of `Lexer::tokenize`.  Fuel bounds
the iteration count; every iteration consumes at least one character, so
`cs.length + 1` always suffices and the fuel-exhausted error is
unreachable from `tokenize`. -/
def tokenizeLoop : Nat → List Char → Nat → Nat → Bool → List Nat →
    Except LexerError (List Token × Nat × Nat × List Nat)
  | 0, _, _, _, _, _ => Except.error ⟨"out of fuel", 0, 0⟩
  | fuel + 1, cs, line, col, atLineStart, stack =>
    match cs with
    | [] => Except.ok ([], line, col, stack)
    | _ :: _ =>
      if atLineStart then
        match handle_indentation cs line col stack with
        | Except.error e => Except.error e
        | Except.ok (toks1, rest1, col1, stack1) =>
          match rest1 with
          | [] => Except.ok (toks1, line, col1, stack1)
          | _ :: _ =>
            match lexOne rest1 line col1 with
            | Except.error e => Except.error e
            | Except.ok (toks2, rest2, l2, c2, als2) =>
              match tokenizeLoop fuel rest2 l2 c2 als2 stack1 with
              | Except.error e => Except.error e
              | Except.ok (toks3, l3, c3, stack3) =>
                Except.ok (toks1 ++ toks2 ++ toks3, l3, c3, stack3)
      else
        match lexOne cs line col with
        | Except.error e => Except.error e
        | Except.ok (toks2, rest2, l2, c2, als2) =>
          match tokenizeLoop fuel rest2 l2 c2 als2 stack with
          | Except.error e => Except.error e
          | Except.ok (toks3, l3, c3, stack3) =>
            Except.ok (toks2 ++ toks3, l3, c3, stack3)
termination_by structural fuel _ _ _ _ _ => fuel

/-- `Lexer::tokenize`: run the scan loop from line 1, column 1, at line
start, with indent stack `[0]`; then append a final `NEWLINE` if missing,
one `DEDENT` per open indent level, and `EOF`. -/
def tokenize (source : String) : Except LexerError (List Token) :=
  let cs := source.data
  match tokenizeLoop (cs.length + 1) cs 1 1 Bool.true [0] with
  | Except.error e => Except.error e
  | Except.ok (toks, line, col, stack) =>
    let toks1 :=
      match toks.getLast? with
      | some t =>
        if t.type ≠ TokenType.Newline then
          toks ++ [⟨TokenType.Newline, "\\n", line, col⟩]
        else toks
      | Option.none => toks
    let dedents : List Token :=
      List.replicate (stack.length - 1) ⟨TokenType.Dedent, "", line, col⟩
    Except.ok (toks1 ++ dedents ++ [⟨TokenType.Eof, "", line, col⟩])

/-- Number of tokens of a given kind in a stream. -/
def countTok (tt : TokenType) (ts : List Token) : Nat :=
  ts.countP (fun t => t.type == tt)

/-- Dedent-domination: in every prefix, the number of `DEDENT`s never
exceeds the number of `INDENT`s by more than `d` (the number of already
open indent levels). -/
def prefixOk (d : ℤ) (ts : List Token) : Prop :=
  ∀ n, (countTok TokenType.Dedent (ts.take n) : ℤ) ≤
    countTok TokenType.Indent (ts.take n) + d

/-- The environment chain reachable from `e` by following parents
(innermost first), fuel-driven like the walks that use it. -/
def envChain : Nat → InterpState → Nat → List Nat
  | 0, _, _ => []
  | fuel + 1, st, e =>
    e :: (match (getFrame st e).parent with
          | some p => envChain fuel st p
          | Option.none => [])

/-! ### Concrete programs and states used by the claim theorems -/

/-- A source provider with no user modules on disk. -/
def noProvider : String → Option (List Node) := fun _ => Option.none

/-- A freshly constructed interpreter with no user modules. -/
def baseState : InterpState := initState noProvider

/-- A provider holding one user module `m` whose source is `x = 1`. -/
def c2Provider : String → Option (List Node) := fun name =>
  if name = "m" then
    some [Node.assignment (Node.identifier "x") TokenType.Eq (Node.numberLit 1)]
  else Option.none

/-- `imp m` followed by the member read `m.x`. -/
def c2Program : List Node :=
  [Node.importStmt ["m"],
   Node.exprStmt (Node.memberAccess (Node.identifier "m") "x")]

/-- `try: x = 1 / except e: pass / finally: y = 2` — the try body
completes without error. -/
def c3Program : Node :=
  Node.tryStmt
    [Node.assignment (Node.identifier "x") TokenType.Eq (Node.numberLit 1)]
    "e"
    [Node.passStmt]
    [Node.assignment (Node.identifier "y") TokenType.Eq (Node.numberLit 2)]

/-- `x = 1 ; fn f(): x = 2 ; f()`. -/
def c7Program : List Node :=
  [Node.assignment (Node.identifier "x") TokenType.Eq (Node.numberLit 1),
   Node.fnDef "f" [] [Node.assignment (Node.identifier "x") TokenType.Eq (Node.numberLit 2)],
   Node.exprStmt (Node.functionCall (Node.identifier "f") [])]

/-- A two-frame state for exercising the scope walk directly: frame 0 is
global and binds `x` to cell 0 (the integer 1); frame 1 is an inner frame
whose parent is frame 0. -/
def c7WitnessState : InterpState :=
  { vals := [make_int 1],
    envs := [⟨Option.none, [("x", 0)]⟩, ⟨some 0, []⟩],
    module_cache := [], module_asts := [], output := "",
    provider := noProvider }

/-- `l = [1, 2] ; l[0] += 5`. -/
def c9Program : List Node :=
  [Node.assignment (Node.identifier "l") TokenType.Eq
     (Node.listLit [Node.numberLit 1, Node.numberLit 2]),
   Node.assignment (Node.indexExpr (Node.identifier "l") (Node.numberLit 0))
     TokenType.PlusEq (Node.numberLit 5)]

/-- A small indented program used to exercise the lexer. -/
def c8Src : String := "if x:\n    y\n"

/-- The token stream the lexer produces for `c8Src`. -/
def c8Toks : List Token :=
  [⟨TokenType.If, "if", 1, 1⟩, ⟨TokenType.Identifier, "x", 1, 4⟩,
   ⟨TokenType.Colon, ":", 1, 5⟩, ⟨TokenType.Newline, "\\n", 1, 6⟩,
   ⟨TokenType.Indent, "", 2, 1⟩, ⟨TokenType.Identifier, "y", 2, 5⟩,
   ⟨TokenType.Newline, "\\n", 2, 6⟩, ⟨TokenType.Dedent, "", 3, 1⟩,
   ⟨TokenType.Eof, "", 3, 1⟩]

/-! ## Claim theorems -/

/-- C1, counterexample.  The claim says `true or <error>` evaluates to
`true` without evaluating the right operand; in the code `eval_binary`
evaluates both operands before the operator switch, so
`true or (1 / 0)` raises `Division by zero` instead of producing a
value. -/
theorem c1_or_counterexample :
    (eval 10 (Node.binaryOp (Node.boolLit Bool.true) TokenType.Or
        (Node.binaryOp (Node.numberLit 1) TokenType.Slash (Node.numberLit 0)))
      0 baseState).map (fun p => p.2) = some (Outcome.err "Division by zero") := rfl

/-- C1, amended.  `eval_binary` always evaluates both operands; the `or`
and `and` switch cases then merely select one of the two already-computed
values (`or`: the left if truthy, else the right; `and`: the right if the
left is truthy, else the left).  Consequently an error raised by the right
operand propagates even when the left operand already decides the result:
there is no short-circuiting. -/
theorem c1_or_and_evaluate_both_operands :
    ∀ fuel L R env st st1 v1, eval fuel L env st = some (st1, Outcome.ok v1) →
      (∀ st2 v2, eval fuel R env st1 = some (st2, Outcome.ok v2) →
        eval (fuel + 1) (Node.binaryOp L TokenType.Or R) env st =
          some (st2, Outcome.ok (if is_truthy (getVal st2 v1) then v1 else v2)) ∧
        eval (fuel + 1) (Node.binaryOp L TokenType.And R) env st =
          some (st2, Outcome.ok (if is_truthy (getVal st2 v1) then v2 else v1))) ∧
      (∀ st2 m, eval fuel R env st1 = some (st2, Outcome.err m) →
        eval (fuel + 1) (Node.binaryOp L TokenType.Or R) env st = some (st2, Outcome.err m) ∧
        eval (fuel + 1) (Node.binaryOp L TokenType.And R) env st = some (st2, Outcome.err m)) := by
  intro fuel L R env st st1 v1 h1
  constructor
  · intro st2 v2 h2
    constructor <;> simp [eval, andThen, h1, h2]
  · intro st2 m h2
    constructor <;> simp [eval, andThen, h1, h2]

/-- C1, witness for the amended theorem at a concrete input:
`true or 5` selects the left operand (cell 16 of the base state) after
evaluating both sides. -/
theorem c1_witness :
    ∃ st1 st2,
      eval 2 (Node.boolLit Bool.true) 0 baseState = some (st1, Outcome.ok 16) ∧
      eval 2 (Node.numberLit 5) 0 st1 = some (st2, Outcome.ok 17) ∧
      eval 3 (Node.binaryOp (Node.boolLit Bool.true) TokenType.Or (Node.numberLit 5)) 0 baseState =
        some (st2, Outcome.ok (if is_truthy (getVal st2 16) then 16 else 17)) := by
  refine ⟨_, _, rfl, rfl, ?_⟩
  exact ((c1_or_and_evaluate_both_operands 2 (Node.boolLit Bool.true) (Node.numberLit 5)
    0 baseState _ 16 rfl).1 _ 17 rfl).1

/-- C2: evaluating `imp m ; m.x` for a user module `m` with source
`x = 1`.  `eval_import` allocates a fresh `mod_env` (child of the global
environment) but executes the module's program with `exec(...)`, i.e. in
the *global* environment, and then collects the module's members from the
untouched `mod_env`.  Hence: the statement raises
`Module 'm' has no member 'x'`, the cached module value for `m` has an
empty member map, and the module-level binding `x = 1` landed in the
global environment instead. -/
theorem c2_import_runs_in_global_env :
    (execProgram 20 c2Program (initState c2Provider)).map (fun p =>
      (p.2,
       (lookupVars p.1.module_cache "m").map (fun i => (getVal p.1 i).module_val),
       (envGet p.1 0 "x").map (fun i => (getVal p.1 i).int_val))) =
    some (Outcome.err "Module 'm' has no member 'x'",
          some (some ⟨"m", []⟩),
          some 1) := rfl

/-- C3: a `try` statement whose body completes without error.  The claim
says the `finally` body always runs; in `eval_try`, the success path
`return exec_body(n->try_body, env)` returns before the `finally` body is
reached, so after evaluating `c3Program` the finally-assigned `y` is still
unbound (while the try-assigned `x` is 1 and the statement's outcome is
normal). -/
theorem c3_finally_skipped_on_success :
    (eval 10 c3Program 0 baseState).map (fun p =>
      ((envGet p.1 0 "y"), (envGet p.1 0 "x").map (fun i => (getVal p.1 i).int_val))) =
      some ((Option.none : Option Nat), some 1) ∧
    ∃ st v, eval 10 c3Program 0 baseState = some (st, Outcome.ok v) :=
  ⟨rfl, _, _, rfl⟩

/-- C4, counterexample.  The claim says a negative `Int` base with a
non-negative `Int` exponent produces a `Float`; `Interpreter::power` only
requires the exponent to be non-negative, so `(-2) ** 3` produces the
`Int` value `-8`, not a `Float`. -/
theorem c4_negative_base_counterexample :
    power (make_int (-2)) (make_int 3) = Except.ok (make_int (-8)) ∧
    (make_int (-8)).type = ValueType.int ∧ ValueType.int ≠ ValueType.float :=
  ⟨rfl, rfl, by decide⟩

/-- The fast-exponentiation loop computes the mathematical power: with
enough fuel, `powLoopAux fuel r b e = r * b ^ e`. -/
theorem powLoopAux_eq :
    ∀ fuel (e : Nat) (r b : ℤ), e < fuel → powLoopAux fuel r b e = r * b ^ e := by
  intro fuel
  induction fuel with
  | zero => intro e r b h; omega
  | succ f ih =>
    intro e r b h
    rw [powLoopAux]
    by_cases he : e = 0
    · subst he; simp
    · rw [if_neg he]
      have hdiv : e / 2 < f := by
        have h1 : e / 2 < e := Nat.div_lt_self (Nat.pos_of_ne_zero he) one_lt_two
        omega
      rw [ih _ _ _ hdiv]
      have hde : 2 * (e / 2) + e % 2 = e := Nat.div_add_mod e 2
      rcases Nat.mod_two_eq_zero_or_one e with h0 | h1
      · rw [if_neg (by omega)]
        have hee : e = 2 * (e / 2) := by omega
        conv_rhs => rw [hee]
        rw [pow_mul, pow_two]
      · rw [if_pos h1]
        have hee : e = 2 * (e / 2) + 1 := by omega
        conv_rhs => rw [hee]
        rw [pow_succ, pow_mul, pow_two]
        ring

/-- `powLoop` with its fuel discharged. -/
theorem powLoop_eq (r b : ℤ) (e : Nat) : powLoop r b e = r * b ^ e :=
  powLoopAux_eq (e + 1) e r b (Nat.lt_succ_self e)

/-- C4, amended.  `Interpreter::power` takes the integer fast-exponentiation
branch whenever both operands are `Int` and the *exponent* is non-negative —
the sign of the base is irrelevant — and the produced `Int` is the
mathematical power.  For every other numeric operand pair (a `Float`
operand, or a negative `Int` exponent) the result is a `Float` via
floating-point `pow`. -/
theorem c4_power_int_branch :
    (∀ a b : ℤ, 0 ≤ b →
      power (make_int a) (make_int b) = Except.ok (make_int (a ^ b.toNat))) ∧
    (∀ l r : BoaValue,
      l.type = ValueType.int ∨ l.type = ValueType.float →
      r.type = ValueType.int ∨ r.type = ValueType.float →
      ¬(l.type = ValueType.int ∧ r.type = ValueType.int ∧ 0 ≤ r.int_val) →
      ∃ q, power l r = Except.ok (make_float q)) := by
  constructor
  · intro a b hb
    rw [power, if_pos ⟨rfl, rfl, hb⟩, powLoop_eq, one_mul]
    rfl
  · intro l r hl hr hnot
    rw [power, if_neg hnot, if_pos ⟨hl, hr⟩]
    rcases hl with hl | hl <;> rcases hr with hr | hr <;>
      simp [as_number, hl, hr, Except.bind] <;> exact ⟨_, rfl⟩

/-- C4, witness: `3 ** 2` takes the `Int` branch; `2.0 ** (-1)` (a `Float`
base) takes the `Float` branch. -/
theorem c4_witness :
    power (make_int 3) (make_int 2) = Except.ok (make_int (3 ^ (2 : ℤ).toNat)) ∧
    ∃ q, power (make_float 2) (make_int (-1)) = Except.ok (make_float q) :=
  ⟨c4_power_int_branch.1 3 2 (by decide),
   c4_power_int_branch.2 (make_float 2) (make_int (-1))
     (Or.inr rfl) (Or.inl rfl) (by decide)⟩

/-- C10: `eval_number` converts every numeric literal whose (exactly
represented) value is an integer of magnitude at most 9·10¹⁸ to an `Int`
value — including literals written with float syntax.  In particular
`2.0` and `1e3` (values 2 and 1000) become `Int`s, and `type` on the
former yields `"int"`. -/
theorem c10_integral_literals_are_int :
    (∀ k : ℤ, -9000000000000000000 ≤ k → k ≤ 9000000000000000000 →
      eval_number (k : ℚ) = make_int k) ∧
    eval_number 2 = make_int 2 ∧
    value_type_name (eval_number 2).type = "int" ∧
    eval_number 1000 = make_int 1000 := by
  refine ⟨?_, rfl, rfl, rfl⟩
  intro k hlo hhi
  have htr : truncQ (k : ℚ) = k := by
    simp [truncQ, Rat.num_intCast, Rat.den_intCast, Int.tdiv_one]
  have hcond : ((truncQ (k : ℚ) : ℤ) : ℚ) = (k : ℚ) ∧
      (-9000000000000000000 : ℚ) ≤ (k : ℚ) ∧ (k : ℚ) ≤ 9000000000000000000 := by
    refine ⟨by rw [htr], ?_, ?_⟩
    · have : ((-9000000000000000000 : ℤ) : ℚ) ≤ (k : ℚ) := by exact_mod_cast hlo
      simpa using this
    · have : ((k : ℤ) : ℚ) ≤ ((9000000000000000000 : ℤ) : ℚ) := by exact_mod_cast hhi
      simpa using this
  rw [eval_number, if_pos hcond, htr]

/-- C10, witness: the general statement applied at the literal value 2
(the source text `2.0`). -/
theorem c10_witness : eval_number ((2 : ℤ) : ℚ) = make_int 2 :=
  c10_integral_literals_are_int.1 2 (by decide) (by decide)

/-- A digit character's numeric code bounds. -/
theorem charDigit_bounds {c : Char} (h : c.isDigit = true) :
    48 ≤ c.toNat ∧ c.toNat ≤ 57 := by
  simp [Char.isDigit, Char.le_def] at h
  exact ⟨h.1, h.2⟩

/-- A digit character's value is below ten. -/
theorem charDigit_lt_ten {c : Char} (h : c.isDigit = true) : charDigit c < 10 := by
  obtain ⟨h1, h2⟩ := charDigit_bounds h
  rw [charDigit]; omega

/-- Converting a digit character to its value and back. -/
theorem digitChar_charDigit {c : Char} (h : c.isDigit = true) :
    digitChar (charDigit c) = c := by
  obtain ⟨h1, _⟩ := charDigit_bounds h
  rw [digitChar, charDigit]
  have he : 48 + (c.toNat - 48) = c.toNat := by omega
  rw [he, Char.ofNat_toNat]

/-- A digit character is not in the `isspace` class. -/
theorem isSpaceChar_of_digit {c : Char} (h : c.isDigit = true) :
    isSpaceChar c = false := by
  obtain ⟨h1, _⟩ := charDigit_bounds h
  simp only [isSpaceChar]
  rw [decide_eq_false_iff_not]
  rintro (h | h | h | h | h | h)
  · rw [h] at h1; exact absurd h1 (by decide)
  · rw [h] at h1; exact absurd h1 (by decide)
  · rw [h] at h1; exact absurd h1 (by decide)
  · rw [h] at h1; exact absurd h1 (by decide)
  · omega
  · omega

/-- A digit character is not a sign character. -/
theorem not_sign_of_digit {c : Char} (h : c.isDigit = true) :
    ¬(c = '-') ∧ ¬(c = '+') := by
  obtain ⟨h1, _⟩ := charDigit_bounds h
  constructor <;> intro he <;> rw [he] at h1 <;> exact absurd h1 (by decide)

/-- `takeWhile` keeps a list all of whose elements satisfy the test. -/
theorem takeWhile_all {α : Type} {p : α → Bool} :
    ∀ l : List α, (∀ c ∈ l, p c = true) → l.takeWhile p = l := by
  intro l h
  induction l with
  | nil => rfl
  | cons a l ih =>
    rw [List.takeWhile_cons, if_pos (h a (List.mem_cons_self a l))]
    rw [ih (fun c hc => h c (List.mem_cons_of_mem a hc))]

/-- The fueled little-endian digit expansion agrees with `Nat.digits`
once the fuel dominates the number. -/
theorem natToDigitsRev_eq_digits :
    ∀ fuel n, 0 < n → n < 10 ^ fuel → natToDigitsRev fuel n = Nat.digits 10 n := by
  intro fuel
  induction fuel with
  | zero => intro n h0 h1; rw [pow_zero] at h1; omega
  | succ f ih =>
    intro n h0 h1
    rw [natToDigitsRev]
    by_cases h10 : n < 10
    · rw [if_pos h10, Nat.digits_def' (by norm_num : (1:ℕ) < 10) h0]
      rw [Nat.mod_eq_of_lt h10, Nat.div_eq_of_lt h10, Nat.digits_zero]
    · rw [if_neg h10, Nat.digits_def' (by norm_num : (1:ℕ) < 10) h0]
      congr 1
      apply ih
      · exact Nat.div_pos (by omega) (by norm_num)
      · rw [Nat.div_lt_iff_lt_mul (by norm_num : (0:ℕ) < 10)]
        have hp : 10 ^ (f + 1) = 10 ^ f * 10 := by rw [pow_succ]
        omega

/-- The big-endian Horner fold of `std::stoll` equals `Nat.ofDigits` of
the reversed digit list. -/
theorem natOfDigitList_eq_ofDigits :
    ∀ cs : List Char, natOfDigitList cs = Nat.ofDigits 10 ((cs.map charDigit).reverse) := by
  intro cs
  induction cs using List.reverseRecOn with
  | nil => rfl
  | append_singleton l c ih =>
    have h1 : natOfDigitList (l ++ [c]) = 10 * natOfDigitList l + charDigit c := by
      simp [natOfDigitList, List.foldl_append]
    have h2 : ((l ++ [c]).map charDigit).reverse =
        charDigit c :: (l.map charDigit).reverse := by simp
    rw [h1, h2, Nat.ofDigits_cons, ← ih]
    omega

/-- Round trip at the digit-list level: printing the parsed value of a
digit string without leading zeros recovers the string. -/
theorem natToDecStr_roundtrip (cs : List Char) (hne : cs ≠ [])
    (hdig : ∀ c ∈ cs, c.isDigit = true)
    (hhead : cs = ['0'] ∨ cs.headD ' ' ≠ '0') :
    natToDecStr (natOfDigitList cs) = String.mk cs := by
  rcases hhead with h0 | hh
  · subst h0; rfl
  · obtain ⟨c0, cs', rfl⟩ : ∃ c0 cs', cs = c0 :: cs' := by
      cases cs with
      | nil => exact absurd rfl hne
      | cons a l => exact ⟨_, _, rfl⟩
    have hc0 : c0.isDigit = true := hdig c0 (List.mem_cons_self _ _)
    obtain ⟨hb1, _⟩ := charDigit_bounds hc0
    have hc0ne : charDigit c0 ≠ 0 := by
      rw [charDigit]
      intro hz
      have h48 : c0.toNat = 48 := by omega
      have hc0z : c0 = '0' := by rw [← Char.ofNat_toNat c0, h48]
      exact hh (show (c0 :: cs').headD ' ' = '0' from hc0z)
    have hlt : ∀ d ∈ ((c0 :: cs').map charDigit).reverse, d < 10 := by
      intro d hd
      rw [List.mem_reverse] at hd
      obtain ⟨c, hc, rfl⟩ := List.mem_map.mp hd
      exact charDigit_lt_ten (hdig c hc)
    have hLne : ((c0 :: cs').map charDigit).reverse ≠ [] := by simp
    have hlastq : (((c0 :: cs').map charDigit).reverse).getLast? = some (charDigit c0) := by
      rw [List.getLast?_reverse]; simp
    have hlast : ∀ (h : ((c0 :: cs').map charDigit).reverse ≠ []),
        ((((c0 :: cs').map charDigit)).reverse).getLast h ≠ 0 := by
      intro h
      have h2 := List.getLast?_eq_getLast (((c0 :: cs').map charDigit).reverse) h
      rw [hlastq] at h2
      have he := Option.some_inj.mp h2
      rw [← he]
      exact hc0ne
    have hdig0 := Nat.digits_ofDigits 10 (by norm_num) _ hlt hlast
    have hval := natOfDigitList_eq_ofDigits (c0 :: cs')
    have hdigits : Nat.digits 10 (natOfDigitList (c0 :: cs')) =
        ((c0 :: cs').map charDigit).reverse := by rw [hval]; exact hdig0
    have hn0 : natOfDigitList (c0 :: cs') ≠ 0 := by
      intro hz
      rw [hz, Nat.digits_zero] at hdigits
      exact hLne hdigits.symm
    have hbound : natOfDigitList (c0 :: cs') < 10 ^ (natOfDigitList (c0 :: cs') + 1) :=
      lt_of_lt_of_le (Nat.lt_pow_self (by norm_num) _)
        (Nat.pow_le_pow_right (by norm_num) (Nat.le_succ _))
    rw [natToDecStr, natToDigitsRev_eq_digits _ _ (Nat.pos_of_ne_zero hn0) hbound,
      hdigits]
    rw [← List.map_reverse, List.reverse_reverse, List.map_map]
    have hmap : List.map (digitChar ∘ charDigit) (c0 :: cs') = c0 :: cs' :=
      (List.map_congr_left (fun c hc => digitChar_charDigit (hdig c hc))).trans
        (List.map_id _)
    rw [hmap]

/-- `std::to_string` of a non-negative value drops to the natural-number
printer. -/
theorem intToDecStr_natCast (n : ℕ) : intToDecStr (n : ℤ) = natToDecStr n := by
  rw [intToDecStr, if_neg (by omega : ¬((n : ℤ) < 0)), Int.toNat_natCast]

/-- `std::stoll` on a nonempty all-digit string parses the whole string
when the value fits `int64_t`. -/
theorem stollModel_digits (s : String) (hne : s.data ≠ [])
    (hdig : ∀ c ∈ s.data, c.isDigit = true)
    (hmax : (natOfDigitList s.data : ℤ) ≤ int64Max) :
    stollModel s = Except.ok (natOfDigitList s.data : ℤ) := by
  obtain ⟨c0, cs', hcs⟩ : ∃ c0 cs', s.data = c0 :: cs' := by
    cases h : s.data with
    | nil => exact absurd h hne
    | cons a l => exact ⟨_, _, rfl⟩
  have hc0 : c0.isDigit = true := hdig c0 (by rw [hcs]; exact List.mem_cons_self _ _)
  obtain ⟨hsm, hsp⟩ := not_sign_of_digit hc0
  have htw : (c0 :: cs').takeWhile Char.isDigit = c0 :: cs' :=
    takeWhile_all _ (by rw [← hcs]; exact hdig)
  have hnn : (0 : ℤ) ≤ (natOfDigitList s.data : ℤ) := Int.natCast_nonneg _
  simp only [stollModel, hcs, List.dropWhile_cons, isSpaceChar_of_digit hc0,
    Bool.false_eq_true, if_false, if_neg hsm, if_neg hsp, htw,
    List.cons_ne_self, reduceCtorEq, ite_false]
  rw [if_neg (by
    rw [← hcs]
    have hM : int64Max = 9223372036854775807 := rfl
    have hm : int64Min = -9223372036854775808 := rfl
    omega)]
  rw [one_mul]

/-- `to_string` on an `Int` value needs no fuel and prints via
`std::to_string`. -/
theorem to_string_int (fuel : Nat) (st : InterpState) (i : ℤ) :
    to_string fuel st (make_int i) = some (intToDecStr i) := by
  cases fuel <;> rfl

/-- C6, counterexample.  The claim quantifies over every string matching
`[0-9]+`; for `s = "00"` the `int` builtin parses 0 and `str` prints
`"0"`, so `str(int("00"))` is `"0" ≠ "00"`. -/
theorem c6_leading_zero_counterexample :
    intOfValue (make_string "00") = Except.ok (make_int 0) ∧
    (∀ fuel st, to_string fuel st (make_int 0) = some "0") ∧
    ("0" : String) ≠ "00" :=
  ⟨rfl, fun fuel _ => by cases fuel <;> rfl, by decide⟩

/-- C6, amended.  For every nonempty digit string `s` without leading
zeros (`s = "0"` or `s` starts with `1`–`9`) whose value fits in
`int64_t`, the `int` builtin yields the parsed `Int` and `to_string` (the
`str` builtin) prints it back as exactly `s`.  (For other `[0-9]+`
strings the round trip fails: leading zeros are not reprinted, and values
beyond `int64_t` raise a conversion error.) -/
theorem c6_str_int_roundtrip :
    ∀ s : String, s.data ≠ [] → (∀ c ∈ s.data, c.isDigit = true) →
      (s.data = ['0'] ∨ s.data.headD ' ' ≠ '0') →
      (natOfDigitList s.data : ℤ) ≤ int64Max →
      intOfValue (make_string s) = Except.ok (make_int (natOfDigitList s.data : ℤ)) ∧
      ∀ fuel st, to_string fuel st (make_int (natOfDigitList s.data : ℤ)) = some s := by
  intro s hne hdig hhead hmax
  constructor
  · rw [intOfValue]
    simp only [make_string]
    rw [stollModel_digits s hne hdig hmax]
  · intro fuel st
    rw [to_string_int, intToDecStr_natCast, natToDecStr_roundtrip s.data hne hdig hhead]

/-- C6, witness: the amended round trip at `s = "42"`. -/
theorem c6_roundtrip_witness :
    intOfValue (make_string "42") = Except.ok (make_int (natOfDigitList "42".data : ℤ)) ∧
    to_string 1 baseState (make_int (natOfDigitList "42".data : ℤ)) = some "42" := by
  have h := c6_str_int_roundtrip "42" (by decide) (by decide) (by decide) (by decide)
  exact ⟨h.1, h.2 1 baseState⟩

/-- Writing a key into the association-list map and reading it back. -/
theorem updateVars_lookup_self (l : List (String × Nat)) (k : String) (v : Nat) :
    lookupVars (updateVars l k v) k = some v := by
  induction l with
  | nil => simp [updateVars, lookupVars]
  | cons p rest ih =>
    obtain ⟨k', v'⟩ := p
    by_cases h : k' = k
    · subst h; simp [updateVars, lookupVars]
    · simp [updateVars, lookupVars, h, ih]

/-- The `while (env)` loop of `Environment::set` finds exactly the first
environment on the parent chain whose map binds the name. -/
theorem findEnvWith_eq_find :
    ∀ fuel st e name,
      findEnvWith fuel st e name =
        (envChain fuel st e).find?
          (fun i => (lookupVars (getFrame st i).vars name).isSome) := by
  intro fuel
  induction fuel with
  | zero => intro st e name; rfl
  | succ f ih =>
    intro st e name
    rw [findEnvWith, envChain]
    by_cases h : (lookupVars (getFrame st e).vars name).isSome
    · rw [if_pos h]
      simp [List.find?, h]
    · rw [if_neg h]
      cases hp : (getFrame st e).parent with
      | some p => simp [List.find?, h, hp, ih]
      | none => simp [List.find?, h, hp]

/-- A frame whose map binds anything is a real heap frame (the
out-of-range default frame has an empty map). -/
theorem lookupVars_isSome_frame_lt (st : InterpState) (f : Nat) (name : String)
    (h : (lookupVars (getFrame st f).vars name).isSome) : f < st.envs.length := by
  by_contra hf
  push_neg at hf
  rw [getFrame, List.getD_eq_default _ _ hf] at h
  simp [lookupVars] at h

/-- Reading back the frame just written. -/
theorem getFrame_setFrame_self (st : InterpState) (i : Nat) (fr : EnvFrame)
    (h : i < st.envs.length) : getFrame (setFrame st i fr) i = fr := by
  simp [getFrame, setFrame, List.getD_eq_getElem?_getD, List.getElem?_set_self h]

/-- Writing one frame leaves every other frame unchanged. -/
theorem getFrame_setFrame_ne (st : InterpState) (i j : Nat) (fr : EnvFrame)
    (h : j ≠ i) : getFrame (setFrame st i fr) j = getFrame st j := by
  simp [getFrame, setFrame, List.getD_eq_getElem?_getD,
    List.getElem?_set_ne (Ne.symm h)]

/-- C7: plain `=` assignment walks the environment chain.
First part: when `Environment::set`'s walk finds the name (at frame `f`),
that frame is the *first* frame on the parent chain binding the name, the
binding there is updated in place to the new value, and no other frame is
touched — in particular no shadowing binding is created in an inner frame.
Second part: when the walk finds nothing, the name is unbound in every
frame of the chain and `set` behaves exactly like `define` on the current
(innermost) frame.
Third part: consequently, after `x = 1 ; fn f(): x = 2 ; f()` the global
`x` is 2 — the function mutated the outer binding instead of shadowing
it. -/
theorem c7_scope_walk :
    (∀ st e name v f, findEnvWith (st.envs.length + 1) st e name = some f →
      (lookupVars (getFrame st f).vars name).isSome ∧
      (envChain (st.envs.length + 1) st e).find?
        (fun i => (lookupVars (getFrame st i).vars name).isSome) = some f ∧
      lookupVars (getFrame (envSet st e name v) f).vars name = some v ∧
      (∀ j, j ≠ f → getFrame (envSet st e name v) j = getFrame st j)) ∧
    (∀ st e name v, findEnvWith (st.envs.length + 1) st e name = Option.none →
      (∀ i ∈ envChain (st.envs.length + 1) st e,
        lookupVars (getFrame st i).vars name = Option.none) ∧
      envSet st e name v = envDefine st e name v) ∧
    (execProgram 20 c7Program baseState).map (fun p =>
      (envGet p.1 0 "x").map (fun i => (getVal p.1 i).int_val)) = some (some 2) := by
  refine ⟨?_, ?_, rfl⟩
  · intro st e name v f h
    have hfind : (envChain (st.envs.length + 1) st e).find?
        (fun i => (lookupVars (getFrame st i).vars name).isSome) = some f := by
      rw [← findEnvWith_eq_find]; exact h
    have hsome : (lookupVars (getFrame st f).vars name).isSome := by
      simpa using List.find?_some hfind
    have hlt : f < st.envs.length := lookupVars_isSome_frame_lt st f name hsome
    refine ⟨hsome, hfind, ?_, ?_⟩
    · simp only [envSet, h]
      rw [getFrame_setFrame_self _ _ _ hlt]
      exact updateVars_lookup_self _ _ _
    · intro j hj
      simp only [envSet, h]
      exact getFrame_setFrame_ne _ _ _ _ hj
  · intro st e name v h
    constructor
    · intro i hi
      have hfind : (envChain (st.envs.length + 1) st e).find?
          (fun i => (lookupVars (getFrame st i).vars name).isSome) = Option.none := by
        rw [← findEnvWith_eq_find]; exact h
      have := List.find?_eq_none.mp hfind i hi
      simpa [Option.not_isSome_iff_eq_none] using this
    · simp only [envSet, h, envDefine]

/-- C7, witness: in the two-frame state, setting `x` from the inner frame
updates the global binding in place (frame 1 untouched), and setting a
fresh name `z` defines it in the inner frame. -/
theorem c7_scope_walk_witness :
    lookupVars (getFrame (envSet c7WitnessState 1 "x" 0) 0).vars "x" = some 0 ∧
    getFrame (envSet c7WitnessState 1 "x" 0) 1 = getFrame c7WitnessState 1 ∧
    envSet c7WitnessState 1 "z" 0 = envDefine c7WitnessState 1 "z" 0 :=
  ⟨(c7_scope_walk.1 c7WitnessState 1 "x" 0 0 rfl).2.2.1,
   (c7_scope_walk.1 c7WitnessState 1 "x" 0 0 rfl).2.2.2 1 (by decide),
   (c7_scope_walk.2.1 c7WitnessState 1 "z" 0 rfl).2⟩

/-- C9: for an index or member assignment target, `eval_assignment` never
inspects the assignment operator — evaluation with any compound operator
is *identical* to evaluation with plain `=` (only identifier targets
combine the old value with the right-hand side).  The second conjunct
shows it concretely: after `l = [1, 2] ; l[0] += 5` the list is `[5, 2]`
(the stored value is the right-hand side, not `1 + 5`). -/
theorem c9_compound_index_assignment_ignores_op :
    (∀ fuel op object index value env st,
      eval fuel (Node.assignment (Node.indexExpr object index) op value) env st =
      eval fuel (Node.assignment (Node.indexExpr object index) TokenType.Eq value) env st) ∧
    (∀ fuel op object member value env st,
      eval fuel (Node.assignment (Node.memberAccess object member) op value) env st =
      eval fuel (Node.assignment (Node.memberAccess object member) TokenType.Eq value) env st) ∧
    (execProgram 20 c9Program baseState).map (fun p =>
      (envGet p.1 0 "l").map (fun i =>
        (getVal p.1 i).list_val.map (fun e => (getVal p.1 e).int_val))) =
      some (some [5, 2]) := by
  refine ⟨?_, ?_, rfl⟩
  · intro fuel op object index value env st
    cases fuel with
    | zero => rfl
    | succ f => rfl
  · intro fuel op object member value env st
    cases fuel with
    | zero => rfl
    | succ f => rfl

/-! ### Lexer invariant: INDENT/DEDENT balance (C8) -/

/-- `countTok` distributes over concatenation. -/
theorem countTok_append (tt : TokenType) (xs ys : List Token) :
    countTok tt (xs ++ ys) = countTok tt xs + countTok tt ys :=
  List.countP_append _ _ _

/-- A stream without dedents stays dedent-dominated at any non-negative
slack. -/
theorem prefixOk_no_dedent {d : ℤ} {ts : List Token} (hd : 0 ≤ d)
    (h : ∀ t ∈ ts, t.type ≠ TokenType.Dedent) : prefixOk d ts := by
  intro n
  have hz : countTok TokenType.Dedent (ts.take n) = 0 := by
    rw [countTok, List.countP_eq_zero]
    intro t ht
    have := h t (List.take_subset _ _ ht)
    simp [this]
  rw [hz]
  have := Int.natCast_nonneg (countTok TokenType.Indent (ts.take n))
  omega

/-- An all-dedent stream of length at most the slack is dedent-dominated. -/
theorem prefixOk_all_dedent {d : ℤ} {ts : List Token}
    (h : ∀ t ∈ ts, t.type = TokenType.Dedent) (hlen : (ts.length : ℤ) ≤ d) :
    prefixOk d ts := by
  intro n
  have h1 : countTok TokenType.Dedent (ts.take n) ≤ ts.length :=
    le_trans (List.countP_le_length _) (by rw [List.length_take]; omega)
  have := Int.natCast_nonneg (countTok TokenType.Indent (ts.take n))
  omega

/-- Dedent-domination composes over concatenation, the slack shifting by
the balance of the first part. -/
theorem prefixOk_append {d : ℤ} {xs ys : List Token} (hx : prefixOk d xs)
    (hy : prefixOk (d + countTok TokenType.Indent xs - countTok TokenType.Dedent xs) ys) :
    prefixOk d (xs ++ ys) := by
  intro n
  rw [List.take_append_eq_append_take, countTok_append, countTok_append]
  by_cases hn : n ≤ xs.length
  · have h0 : n - xs.length = 0 := by omega
    rw [h0]
    have h1 := hx n
    simp only [List.take_zero, countTok, List.countP_nil] at *
    omega
  · have hxx : xs.take n = xs := List.take_of_length_le (by omega)
    rw [hxx]
    have h2 := hy (n - xs.length)
    omega

/-- The dedent-pop loop: it emits copies of its token, one per popped
level, and never empties a nonempty stack. -/
theorem dedentLoop_spec (indent : Nat) (tok : Token) :
    ∀ stack : List Nat,
      (∀ t ∈ (dedentLoop indent tok stack).1, t = tok) ∧
      (dedentLoop indent tok stack).1.length + (dedentLoop indent tok stack).2.length
        = stack.length ∧
      (stack ≠ [] → (dedentLoop indent tok stack).2 ≠ []) := by
  intro stack
  induction stack with
  | nil => simp [dedentLoop]
  | cons top rest ih =>
    cases rest with
    | nil => simp [dedentLoop]
    | cons next rest2 =>
      rw [dedentLoop]
      by_cases h : top > indent
      · rw [if_pos h]
        obtain ⟨ih1, ih2, ih3⟩ := ih
        refine ⟨?_, ?_, ?_⟩
        · intro t ht
          rcases List.mem_cons.mp ht with h1 | h1
          · exact h1
          · exact ih1 t h1
        · simp only [List.length_cons] at ih2 ⊢
          omega
        · intro _
          exact ih3 (by simp)
      · rw [if_neg h]
        simp

/-- What `handle_indentation` can emit: the stack stays nonempty, the
emitted tokens are homogeneous (only `INDENT`s or only `DEDENT`s), the
token balance matches the stack-length change, and strictly fewer
`DEDENT`s than open levels are emitted. -/
theorem handle_indentation_spec
    (cs : List Char) (line col : Nat) (stack : List Nat)
    (toks : List Token) (rest : List Char) (col' : Nat) (stack' : List Nat)
    (hs : stack ≠ [])
    (h : handle_indentation cs line col stack = Except.ok (toks, rest, col', stack')) :
    stack' ≠ [] ∧
    countTok TokenType.Indent toks + stack.length
      = countTok TokenType.Dedent toks + stack'.length ∧
    ((∀ t ∈ toks, t.type ≠ TokenType.Dedent) ∨
      (∀ t ∈ toks, t.type = TokenType.Dedent)) ∧
    countTok TokenType.Dedent toks + 1 ≤ stack.length := by
  have hpos : 0 < stack.length := List.length_pos.mpr hs
  simp only [handle_indentation] at h
  split at h
  · simp only [Except.ok.injEq, Prod.mk.injEq] at h
    obtain ⟨h1, _, _, h4⟩ := h
    subst h1; subst h4
    exact ⟨hs, by simp [countTok], Or.inl (by simp), by simp [countTok]; omega⟩
  · split at h
    · simp only [Except.ok.injEq, Prod.mk.injEq] at h
      obtain ⟨h1, _, _, h4⟩ := h
      subst h1; subst h4
      exact ⟨hs, by simp [countTok], Or.inl (by simp), by simp [countTok]; omega⟩
    · split at h
      · -- indent > current: push and emit one INDENT
        simp only [Except.ok.injEq, Prod.mk.injEq] at h
        obtain ⟨h1, _, _, h4⟩ := h
        subst h1; subst h4
        refine ⟨by simp, ?_, Or.inl ?_, ?_⟩
        · simp [countTok]
          omega
        · intro t ht
          rcases List.mem_singleton.mp ht with rfl
          simp
        · simp [countTok]; omega
      · split at h
        · -- dedent: pop levels
          split at h
          · exact absurd h (by simp)
          · simp only [Except.ok.injEq, Prod.mk.injEq] at h
            obtain ⟨h1, _, _, h4⟩ := h
            subst h1; subst h4
            obtain ⟨hd1, hd2, hd3⟩ :=
              dedentLoop_spec (indentLoop cs 0).1
                (⟨TokenType.Dedent, "", line, col⟩ : Token) stack
            have htype : ∀ t ∈ (dedentLoop (indentLoop cs 0).1 (⟨TokenType.Dedent, "", line, col⟩ : Token) stack).1,
                t.type = TokenType.Dedent := by
              intro t ht
              rw [hd1 t ht]
            have hcd : countTok TokenType.Dedent
                (dedentLoop (indentLoop cs 0).1 (⟨TokenType.Dedent, "", line, col⟩ : Token) stack).1
                = (dedentLoop (indentLoop cs 0).1 (⟨TokenType.Dedent, "", line, col⟩ : Token) stack).1.length := by
              rw [countTok, List.countP_eq_length]
              intro t ht
              simp [htype t ht]
            have hci : countTok TokenType.Indent
                (dedentLoop (indentLoop cs 0).1 (⟨TokenType.Dedent, "", line, col⟩ : Token) stack).1 = 0 := by
              rw [countTok, List.countP_eq_zero]
              intro t ht
              simp [htype t ht]
            have hne2 := hd3 hs
            have hpos2 : 0 <
                (dedentLoop (indentLoop cs 0).1 (⟨TokenType.Dedent, "", line, col⟩ : Token) stack).2.length :=
              List.length_pos.mpr hne2
            exact ⟨hne2, by rw [hci, hcd]; omega, Or.inr htype, by rw [hcd]; omega⟩
        · -- equal indent: nothing emitted
          simp only [Except.ok.injEq, Prod.mk.injEq] at h
          obtain ⟨h1, _, _, h4⟩ := h
          subst h1; subst h4
          exact ⟨hs, by simp [countTok], Or.inl (by simp), by simp [countTok]; omega⟩

/-- A single token of another kind contributes no count. -/
theorem countTok_single (tt : TokenType) (t : Token) (h : t.type ≠ tt) :
    countTok tt [t] = 0 := by
  simp [countTok, List.countP_cons, h]

/-- `read_string` only ever produces a `String` token. -/
theorem readStringLoop_type :
    ∀ (n : Nat) (cs : List Char) (quote : Char) (sl sc line col : Nat)
      (acc : List Char) (tok : Token) (rest : List Char) (l2 c2 : Nat),
      cs.length ≤ n →
      readStringLoop quote sl sc cs line col acc = Except.ok (tok, rest, l2, c2) →
      tok.type = TokenType.String := by
  intro n
  induction n with
  | zero =>
    intro cs quote sl sc line col acc tok rest l2 c2 hle h
    cases cs with
    | nil => rw [readStringLoop] at h; exact Except.noConfusion h
    | cons c cs' => simp at hle
  | succ n ih =>
    intro cs quote sl sc line col acc tok rest l2 c2 hle h
    cases cs with
    | nil => rw [readStringLoop] at h; exact Except.noConfusion h
    | cons c cs' =>
      rw [readStringLoop] at h
      split at h
      · exact Except.noConfusion h
      · split at h
        · split at h
          · exact Except.noConfusion h
          · split at h
            · refine ih _ quote sl sc _ _ _ tok rest l2 c2 ?_ h
              simp only [List.length_cons] at hle
              omega
            · exact Except.noConfusion h
        · split at h
          · simp only [Except.ok.injEq, Prod.mk.injEq] at h
            obtain ⟨h1, _⟩ := h
            rw [← h1]
          · refine ih cs' quote sl sc _ _ _ tok rest l2 c2 ?_ h
            simp only [List.length_cons] at hle
            omega

/-- `read_number` only ever produces an `Int` or `Float` token. -/
theorem read_number_type (cs : List Char) (line col : Nat) (tok : Token)
    (rest : List Char) (l2 c2 : Nat)
    (h : read_number cs line col = Except.ok (tok, rest, l2, c2)) :
    tok.type = TokenType.Float ∨ tok.type = TokenType.Int := by
  simp only [read_number] at h
  split at h
  · split at h
    · split at h
      · exact Except.noConfusion h
      · simp only [Except.ok.injEq, Prod.mk.injEq] at h
        obtain ⟨h1, _⟩ := h
        rw [← h1]
        exact Or.inl rfl
    · simp only [Except.ok.injEq, Prod.mk.injEq] at h
      obtain ⟨h1, _⟩ := h
      rw [← h1]
      dsimp only
      split
      · exact Or.inl rfl
      · exact Or.inr rfl
  · simp only [Except.ok.injEq, Prod.mk.injEq] at h
    obtain ⟨h1, _⟩ := h
    rw [← h1]
    dsimp only
    split
    · exact Or.inl rfl
    · exact Or.inr rfl

/-- Every keyword kind is a non-structural token. -/
theorem keywordLookup_type (s : String) (t : TokenType)
    (h : keywordLookup s = some t) :
    t ≠ TokenType.Indent ∧ t ≠ TokenType.Dedent := by
  unfold keywordLookup at h
  split at h <;>
    first
      | exact Option.noConfusion h
      | (injection h with h2; subst h2; exact ⟨by decide, by decide⟩)

/-- `read_identifier_or_keyword` only produces identifier or keyword
tokens. -/
theorem read_identifier_type (cs : List Char) (line col : Nat) :
    (read_identifier cs line col).1.type ≠ TokenType.Indent ∧
    (read_identifier cs line col).1.type ≠ TokenType.Dedent := by
  rw [read_identifier]
  dsimp only
  cases hk : keywordLookup (String.mk (cs.takeWhile (fun x => x.isAlphanum ∨ x = '_'))) with
  | none => simp [hk]
  | some t =>
    simp only [hk, Option.getD_some]
    exact keywordLookup_type _ t hk

/-- `read_operator_or_delimiter` only produces operator/delimiter
tokens. -/
theorem read_operator_type (c : Char) (rest : List Char) (line col : Nat)
    (tok : Token) (rest2 : List Char) (l2 c2 : Nat)
    (h : read_operator c rest line col = Except.ok (tok, rest2, l2, c2)) :
    tok.type ≠ TokenType.Indent ∧ tok.type ≠ TokenType.Dedent := by
  simp only [read_operator] at h
  split at h
  all_goals try split at h
  all_goals try split at h
  all_goals
    first
      | exact Except.noConfusion h
      | (simp only [Except.ok.injEq, Prod.mk.injEq] at h
         obtain ⟨h1, _⟩ := h
         rw [← h1]
         exact ⟨by simp, by simp⟩)

/-- The per-character dispatch of the `tokenize` loop never emits
`INDENT` or `DEDENT` tokens (only `handle_indentation` does). -/
theorem lexOne_no_indent_dedent (cs : List Char) (line col : Nat)
    (toks : List Token) (rest : List Char) (l2 c2 : Nat) (b : Bool)
    (h : lexOne cs line col = Except.ok (toks, rest, l2, c2, b)) :
    countTok TokenType.Indent toks = 0 ∧ countTok TokenType.Dedent toks = 0 := by
  cases cs with
  | nil =>
    simp only [lexOne, Except.ok.injEq, Prod.mk.injEq] at h
    obtain ⟨h1, _⟩ := h
    rw [← h1]
    exact ⟨rfl, rfl⟩
  | cons c rest0 =>
    simp only [lexOne] at h
    split at h
    · simp only [Except.ok.injEq, Prod.mk.injEq] at h
      obtain ⟨h1, _⟩ := h
      rw [← h1]; exact ⟨rfl, rfl⟩
    · split at h
      · simp only [Except.ok.injEq, Prod.mk.injEq] at h
        obtain ⟨h1, _⟩ := h
        rw [← h1]; exact ⟨rfl, rfl⟩
      · split at h
        · split at h
          · simp only [Except.ok.injEq, Prod.mk.injEq] at h
            obtain ⟨h1, _⟩ := h
            rw [← h1]; exact ⟨rfl, rfl⟩
          · simp only [Except.ok.injEq, Prod.mk.injEq] at h
            obtain ⟨h1, _⟩ := h
            rw [← h1]; exact ⟨rfl, rfl⟩
        · split at h
          · simp only [Except.ok.injEq, Prod.mk.injEq] at h
            obtain ⟨h1, _⟩ := h
            rw [← h1]; exact ⟨rfl, rfl⟩
          · split at h
            · split at h
              · exact Except.noConfusion h
              · rename_i tok1 rest1 l1 c1 heq
                have ht := readStringLoop_type rest0.length rest0 c line col _ _ []
                  tok1 rest1 l1 c1 (le_refl _) heq
                simp only [Except.ok.injEq, Prod.mk.injEq] at h
                obtain ⟨h1, _⟩ := h
                rw [← h1]
                exact ⟨countTok_single _ _ (by rw [ht]; decide),
                      countTok_single _ _ (by rw [ht]; decide)⟩
            · split at h
              · split at h
                · exact Except.noConfusion h
                · rename_i tok1 rest1 l1 c1 heq
                  have ht := read_number_type (c :: rest0) line col tok1 rest1 l1 c1 heq
                  simp only [Except.ok.injEq, Prod.mk.injEq] at h
                  obtain ⟨h1, _⟩ := h
                  rw [← h1]
                  rcases ht with ht | ht <;>
                    exact ⟨countTok_single _ _ (by rw [ht]; decide),
                          countTok_single _ _ (by rw [ht]; decide)⟩
              · split at h
                · have ht := read_identifier_type (c :: rest0) line col
                  simp only [Except.ok.injEq, Prod.mk.injEq] at h
                  obtain ⟨h1, _⟩ := h
                  rw [← h1]
                  exact ⟨countTok_single _ _ ht.1, countTok_single _ _ ht.2⟩
                · split at h
                  · exact Except.noConfusion h
                  · rename_i tok1 rest1 l1 c1 heq
                    have ht := read_operator_type c rest0 line col tok1 rest1 l1 c1 heq
                    simp only [Except.ok.injEq, Prod.mk.injEq] at h
                    obtain ⟨h1, _⟩ := h
                    rw [← h1]
                    exact ⟨countTok_single _ _ ht.1, countTok_single _ _ ht.2⟩

/-- Counting over a prefix never exceeds the whole. -/
theorem countTok_take_le (tt : TokenType) (ts : List Token) (n : Nat) :
    countTok tt (ts.take n) ≤ countTok tt ts :=
  List.Sublist.countP_le _ (List.take_sublist n ts)

/-- A stream with no dedents at all is dedent-dominated at any
non-negative slack. -/
theorem prefixOk_zero_dedent {d : ℤ} {ts : List Token} (hd : 0 ≤ d)
    (h : countTok TokenType.Dedent ts = 0) : prefixOk d ts := by
  intro n
  have h1 := countTok_take_le TokenType.Dedent ts n
  have h2 := Int.natCast_nonneg (countTok TokenType.Indent (ts.take n))
  omega

/-- The output of one `handle_indentation` call is dedent-dominated at
slack `|stack| - 1`. -/
theorem hi_prefixOk {stack : List Nat} {toks : List Token}
    (hhom : (∀ t ∈ toks, t.type ≠ TokenType.Dedent) ∨
      (∀ t ∈ toks, t.type = TokenType.Dedent))
    (hcd : countTok TokenType.Dedent toks + 1 ≤ stack.length)
    (hs : stack ≠ []) : prefixOk ((stack.length : ℤ) - 1) toks := by
  have hpos := List.length_pos.mpr hs
  rcases hhom with hno | hall
  · exact prefixOk_no_dedent (by omega) hno
  · apply prefixOk_all_dedent hall
    have hlen : countTok TokenType.Dedent toks = toks.length := by
      rw [countTok, List.countP_eq_length]
      intro t ht
      simp [hall t ht]
    omega

/-- Dedent domination only depends on the value of the slack. -/
theorem prefixOk_of_eq {d d' : ℤ} {ts : List Token} (h : d' = d) :
    prefixOk d ts → prefixOk d' ts := h ▸ id

/-- The scan-loop invariant: on a successful run the indent stack stays
nonempty, the INDENT/DEDENT balance of the emitted tokens equals the
stack-length change, and every prefix is dedent-dominated at slack
`|stack| - 1`. -/
theorem tokenizeLoop_spec :
    ∀ fuel cs line col als stack toks l2 c2 stack',
      tokenizeLoop fuel cs line col als stack = Except.ok (toks, l2, c2, stack') →
      stack ≠ [] →
      stack' ≠ [] ∧
      countTok TokenType.Indent toks + stack.length
        = countTok TokenType.Dedent toks + stack'.length ∧
      prefixOk ((stack.length : ℤ) - 1) toks := by
  intro fuel
  induction fuel with
  | zero =>
    intro cs line col als stack toks l2 c2 stack' h _
    rw [tokenizeLoop.eq_def] at h
    exact Except.noConfusion h
  | succ f ih =>
    intro cs line col als stack toks l2 c2 stack' h hs
    have hpos := List.length_pos.mpr hs
    cases cs with
    | nil =>
      -- nothing emitted
      rw [tokenizeLoop] at h
      simp only [Except.ok.injEq, Prod.mk.injEq] at h
      obtain ⟨h1, _, _, h4⟩ := h
      subst h1; subst h4
      refine ⟨hs, by simp [countTok], ?_⟩
      intro n
      simp only [List.take_nil, countTok, List.countP_nil]
      omega
    | cons c rest =>
      rw [tokenizeLoop] at h
      split at h
      · -- at line start: handle_indentation first
        split at h
        · exact Except.noConfusion h
        · rename_i toks1 rest1 col1 stack1 heqhi
          obtain ⟨hne1, heq1, hhom1, hcd1⟩ :=
            handle_indentation_spec _ _ _ _ _ _ _ _ hs heqhi
          have hpfx1 := hi_prefixOk hhom1 hcd1 hs
          split at h
          · -- input exhausted after indentation
            simp only [Except.ok.injEq, Prod.mk.injEq] at h
            obtain ⟨h1, _, _, h4⟩ := h
            subst h1; subst h4
            exact ⟨hne1, by omega, hpfx1⟩
          · -- dispatch one token, then recurse
            split at h
            · exact Except.noConfusion h
            · rename_i toks2 rest2 l2' c2' als2 heqlex
              split at h
              · exact Except.noConfusion h
              · rename_i toks3 l3 c3 stack3 heqrec
                simp only [Except.ok.injEq, Prod.mk.injEq] at h
                obtain ⟨h1, _, _, h4⟩ := h
                subst h1; subst h4
                obtain ⟨hz1, hz2⟩ := lexOne_no_indent_dedent _ _ _ _ _ _ _ _ heqlex
                obtain ⟨hne3, heq3, hpfx3⟩ :=
                  ih _ _ _ _ _ _ _ _ _ heqrec hne1
                refine ⟨hne3, ?_, ?_⟩
                · rw [countTok_append, countTok_append, countTok_append, countTok_append]
                  omega
                · rw [List.append_assoc]
                  apply prefixOk_append hpfx1
                  apply prefixOk_append (prefixOk_zero_dedent (by omega) hz2)
                  rw [hz1, hz2]
                  exact prefixOk_of_eq (by push_cast; omega) hpfx3
      · -- not at line start: dispatch directly, then recurse
        split at h
        · exact Except.noConfusion h
        · rename_i toks2 rest2 l2' c2' als2 heqlex
          split at h
          · exact Except.noConfusion h
          · rename_i toks3 l3 c3 stack3 heqrec
            simp only [Except.ok.injEq, Prod.mk.injEq] at h
            obtain ⟨h1, _, _, h4⟩ := h
            subst h1; subst h4
            obtain ⟨hz1, hz2⟩ := lexOne_no_indent_dedent _ _ _ _ _ _ _ _ heqlex
            obtain ⟨hne3, heq3, hpfx3⟩ := ih _ _ _ _ _ _ _ _ _ heqrec hs
            refine ⟨hne3, ?_, ?_⟩
            · rw [countTok_append, countTok_append]
              omega
            · apply prefixOk_append (prefixOk_zero_dedent (by omega) hz2)
              rw [hz1, hz2]
              exact prefixOk_of_eq (by push_cast; omega) hpfx3

/-- Appending `k` dedents and a final `EOF` to a dedent-dominated stream
whose indents exceed its dedents by exactly `k` yields a stream with equal
counts, dedent domination in every prefix, and `EOF` last. -/
theorem stream_flush_ok {a : List Token} {k : Nat} {dtok etok : Token}
    (hdt : dtok.type = TokenType.Dedent) (het : etok.type = TokenType.Eof)
    (hbal : countTok TokenType.Indent a = countTok TokenType.Dedent a + k)
    (hpfx : prefixOk 0 a) :
    countTok TokenType.Indent (a ++ List.replicate k dtok ++ [etok])
      = countTok TokenType.Dedent (a ++ List.replicate k dtok ++ [etok]) ∧
    (∀ n, countTok TokenType.Dedent ((a ++ List.replicate k dtok ++ [etok]).take n)
      ≤ countTok TokenType.Indent ((a ++ List.replicate k dtok ++ [etok]).take n)) ∧
    (a ++ List.replicate k dtok ++ [etok]).getLast?.map Token.type
      = some TokenType.Eof := by
  have hrepI : countTok TokenType.Indent (List.replicate k dtok) = 0 := by
    simp [countTok, List.countP_replicate, hdt]
  have hrepD : countTok TokenType.Dedent (List.replicate k dtok) = k := by
    simp [countTok, List.countP_replicate, hdt]
  have heI : countTok TokenType.Indent [etok] = 0 := by
    simp [countTok, List.countP_cons, het]
  have heD : countTok TokenType.Dedent [etok] = 0 := by
    simp [countTok, List.countP_cons, het]
  refine ⟨?_, ?_, ?_⟩
  · rw [countTok_append, countTok_append, countTok_append, countTok_append,
      hrepI, hrepD, heI, heD]
    omega
  · have htotal : prefixOk 0 (a ++ List.replicate k dtok ++ [etok]) := by
      rw [List.append_assoc]
      refine prefixOk_append hpfx (prefixOk_append (prefixOk_all_dedent ?_ ?_) ?_)
      · intro t ht
        rw [List.eq_of_mem_replicate ht]
        exact hdt
      · rw [List.length_replicate]
        omega
      · rw [hrepI, hrepD]
        refine prefixOk_no_dedent (by omega) ?_
        intro t ht
        simp only [List.mem_singleton] at ht
        subst ht
        rw [het]
        simp
    intro n
    have := htotal n
    omega
  · rw [List.getLast?_concat]
    simp [het]

/-- C8: for every input string on which the lexer succeeds, the emitted
token stream contains equal counts of `INDENT` and `DEDENT` tokens, in
every prefix of the stream the number of `DEDENT`s never exceeds the
number of `INDENT`s (so every `INDENT` is matched by a later `DEDENT`),
and the final token is `EOF` — hence every matching `DEDENT` occurs
before the final `EOF`. -/
theorem c8_lexer_indent_balance (src : String) (toks : List Token)
    (h : tokenize src = Except.ok toks) :
    countTok TokenType.Indent toks = countTok TokenType.Dedent toks ∧
    (∀ n, countTok TokenType.Dedent (toks.take n)
      ≤ countTok TokenType.Indent (toks.take n)) ∧
    toks.getLast?.map Token.type = some TokenType.Eof := by
  rw [tokenize] at h
  split at h
  · exact Except.noConfusion h
  · rename_i toks0 line col stack' heq
    obtain ⟨hne, hbal, hpfx⟩ := tokenizeLoop_spec _ _ _ _ _ _ _ _ _ _ heq (by simp)
    simp only [List.length_cons, List.length_nil] at hbal
    have hk : 0 < stack'.length := List.length_pos.mpr hne
    have hpfx0 : prefixOk 0 toks0 := prefixOk_of_eq (by simp) hpfx
    simp only [Except.ok.injEq] at h
    subst h
    split
    · rename_i t hgl
      split
      · -- a trailing newline is appended first
        have hnlI : countTok TokenType.Indent
            [(⟨TokenType.Newline, "\\n", line, col⟩ : Token)] = 0 := rfl
        have hnlD : countTok TokenType.Dedent
            [(⟨TokenType.Newline, "\\n", line, col⟩ : Token)] = 0 := rfl
        refine stream_flush_ok rfl rfl ?_ ?_
        · rw [countTok_append, countTok_append, hnlI, hnlD]
          omega
        · refine prefixOk_append hpfx0 (prefixOk_no_dedent (by omega) ?_)
          intro u hu
          simp only [List.mem_singleton] at hu
          subst hu
          simp
      · -- stream already ends in a newline
        exact stream_flush_ok rfl rfl (by omega) hpfx0
    · -- empty token stream from the loop
      exact stream_flush_ok rfl rfl (by omega) hpfx0

/-- Witness for C8: the lexer accepts a two-line indented program, and the
resulting stream has balanced indentation counts, dedent domination in a
sample prefix, and a final `EOF`. -/
theorem c8_lexer_indent_balance_witness :
    tokenize c8Src = Except.ok c8Toks ∧
    countTok TokenType.Indent c8Toks = countTok TokenType.Dedent c8Toks ∧
    countTok TokenType.Dedent (c8Toks.take 5)
      ≤ countTok TokenType.Indent (c8Toks.take 5) ∧
    c8Toks.getLast?.map Token.type = some TokenType.Eof :=
  ⟨rfl, (c8_lexer_indent_balance c8Src c8Toks rfl).1,
    (c8_lexer_indent_balance c8Src c8Toks rfl).2.1 5,
    (c8_lexer_indent_balance c8Src c8Toks rfl).2.2⟩

end Boa
